import Mathlib

set_option linter.unusedSectionVars false

/-!
Shallow embedding of `src/simple_hdri_controller.py`, a Blender add-on that
loads an HDRI image, wires it into the world shading graph and exposes
rotation/strength controls.

Host model (the slice of the `bpy` API the add-on touches):
* node and link collections are lists; `nodes.get(name)` returns the first
  node carrying that name; `nodes.new(idname)` appends a node with a fresh
  id; `links.new(a, b)` appends a link;
* scalar values (property contents, socket default values) live in an
  arbitrary linear ordered field `R`; `math.pi` is passed as a parameter
  `pi`, so `math.radians d = d * (pi / 180)` is exact;
* `FloatProperty(min=0.0)` clamps the stored value from below at `0`, and
  assigning a property runs its `update` callback on the stored value;
* scenes are addressed by their position in `Data.scenes`; a context
  (`bpy.context` or an operator's `context`) optionally designates a scene.
-/

namespace SHDRI

/-- Severity and message of an operator `self.report(...)` call. -/
structure Report where
  level : String
  msg : String
deriving DecidableEq

/-- Operator return status, `{'FINISHED'}` or `{'CANCELLED'}`. -/
inductive OpResult
  | FINISHED
  | CANCELLED
deriving DecidableEq

/-- A socket reference: owning node id plus socket name. -/
structure SocketRef where
  node : Nat
  sock : String
deriving DecidableEq

/-- A link of the world node tree (`node_tree.links` element). -/
structure Link where
  from_socket : SocketRef
  to_socket : SocketRef
deriving DecidableEq

/-- A shader node. `rotation` models `inputs["Rotation"].default_value`
(used on the mapping node), `strength` models
`inputs["Strength"].default_value` (used on the background node) and
`image` the environment node's `image` pointer (an image id). -/
structure Node (R : Type) where
  id : Nat
  name : String
  ntype : String
  location : Int × Int
  image : Option Nat
  rotation : R × R × R
  strength : R
deriving DecidableEq

/-- A world: `use_nodes` flag plus its node tree. `nextId` feeds fresh node
ids to `nodes.new`. -/
structure World (R : Type) where
  use_nodes : Bool
  nodes : List (Node R)
  links : List Link
  nextId : Nat
deriving DecidableEq

/-- The `SHDRI_Props` property group attached to a scene: an image pointer
(image id), the rotation in degrees and the strength. -/
structure Props (R : Type) where
  image : Option Nat
  rotation_deg : R
  strength : R
deriving DecidableEq

/-- An image datablock of `bpy.data.images`. -/
structure Image where
  id : Nat
  name : String
  filepath : String
  itype : String
deriving DecidableEq

/-- A scene: an optional world and its `shdri_props` record. -/
structure Scene (R : Type) where
  world : Option (World R)
  shdri_props : Props R
deriving DecidableEq

/-- A context; `scene` optionally designates a scene index. `none` also
covers a context object lacking the `scene` attribute. -/
structure Ctx where
  scene : Option Nat
deriving DecidableEq

/-- The host data (`bpy.data`): scene list, image list, and a fresh-id
counter for newly loaded images. -/
structure Data (R : Type) where
  scenes : List (Scene R)
  images : List Image
  nextImageId : Nat
deriving DecidableEq

/-- Outcome of an operator `execute`: the new host data, the return status
and the reports issued. -/
structure OpOutcome (R : Type) where
  data : Data R
  result : OpResult
  reports : List Report
deriving DecidableEq

/-- Handles into the node tree returned by `ensure_world_node_setup`
(the ids of the five role nodes of the returned dictionary). -/
structure Handles where
  out : Nat
  bg : Nat
  env : Nat
  mapping : Nat
  texcoord : Nat
deriving DecidableEq

variable {R : Type} [LinearOrderedField R]

/-- Blender node type of a `nodes.new` idname, for the five idnames the
add-on uses. -/
def nodeTypeOf (idname : String) : String :=
  if idname = "ShaderNodeOutputWorld" then "OUTPUT_WORLD"
  else if idname = "ShaderNodeBackground" then "BACKGROUND"
  else if idname = "ShaderNodeTexEnvironment" then "TEX_ENVIRONMENT"
  else if idname = "ShaderNodeMapping" then "MAPPING"
  else if idname = "ShaderNodeTexCoord" then "TEX_COORD"
  else "UNDEFINED"

/-- Output socket names per node type (host socket table, restricted to
the types the add-on creates). -/
def outputsOf (ntype : String) : List String :=
  if ntype = "TEX_COORD" then
    ["Generated", "Normal", "UV", "Object", "Camera", "Window", "Reflection"]
  else if ntype = "MAPPING" then ["Vector"]
  else if ntype = "TEX_ENVIRONMENT" then ["Color"]
  else if ntype = "BACKGROUND" then ["Background"]
  else []

/-- Input socket names per node type (host socket table, restricted to
the types the add-on creates). -/
def inputsOf (ntype : String) : List String :=
  if ntype = "MAPPING" then ["Vector", "Location", "Rotation", "Scale"]
  else if ntype = "TEX_ENVIRONMENT" then ["Vector"]
  else if ntype = "BACKGROUND" then ["Color", "Strength"]
  else if ntype = "OUTPUT_WORLD" then ["Surface", "Volume"]
  else []

/-- `node.outputs.get(s)`. -/
def outputGet (n : Node R) (s : String) : Option SocketRef :=
  if s ∈ outputsOf n.ntype then some ⟨n.id, s⟩ else none

/-- `node.inputs.get(s)`. -/
def inputGet (n : Node R) (s : String) : Option SocketRef :=
  if s ∈ inputsOf n.ntype then some ⟨n.id, s⟩ else none

/-- `math.radians` over `R`: `d * (pi / 180)`. -/
def radians (pi d : R) : R := d * (pi / 180)

/-- `_safe_scene`, second and third fallback: consult `bpy.context`, then
`bpy.data.scenes[0]`, then give up. -/
def globalFallback (d : Data R) (gctx : Option Ctx) : Option Nat :=
  match gctx with
  | some g =>
      match g.scene with
      | some s => some s
      | none => if d.scenes.isEmpty then none else some 0
  | none => if d.scenes.isEmpty then none else some 0

/-- `_safe_scene(ctx)`: the context's scene if present (after
`ctx = ctx or bpy.context`), else the global context's scene, else the
first scene of `bpy.data.scenes`, else `None`. `gctx` is `bpy.context`. -/
def _safe_scene (d : Data R) (gctx ctx : Option Ctx) : Option Nat :=
  match (match ctx with | some c => some c | none => gctx) with
  | some c =>
      match c.scene with
      | some s => some s
      | none => globalFallback d gctx
  | none => globalFallback d gctx

/-- A fresh node: `nodes.new(idname)` followed by the `name` and `location`
assignments of `ensure_world_node_setup`. Socket default values start at
the host defaults: rotation `(0, 0, 0)`, strength `1`, no image. -/
def mkNode (nid : Nat) (rname idname : String) (loc : Int × Int) : Node R :=
  { id := nid, name := rname, ntype := nodeTypeOf idname, location := loc,
    image := none, rotation := (0, 0, 0), strength := 1 }

/-- One `nodes.get(name)` / type check / `nodes.new` block of
`ensure_world_node_setup`: reuse the named node when it exists with the
right type, otherwise create (and name) a fresh one. -/
def findOrCreate (w : World R) (rname idname : String) (loc : Int × Int) :
    World R × Node R :=
  match w.nodes.find? (fun n => n.name == rname) with
  | some n =>
      if n.ntype = nodeTypeOf idname then (w, n)
      else
        ({ w with
            nodes := w.nodes ++ [mkNode w.nextId rname idname loc],
            nextId := w.nextId + 1 }, mkNode w.nextId rname idname loc)
  | none =>
      ({ w with
          nodes := w.nodes ++ [mkNode w.nextId rname idname loc],
          nextId := w.nextId + 1 }, mkNode w.nextId rname idname loc)

/-- `link_once(from_socket, to_socket)`: do nothing when either socket is
missing or a link into `to_socket` already comes from `from_socket`,
otherwise create the link. -/
def link_once (ls : List Link) (fs ts : Option SocketRef) : List Link :=
  match fs, ts with
  | some f, some t =>
      if ls.any (fun l => l.to_socket == t && l.from_socket == f) then ls
      else ls ++ [⟨f, t⟩]
  | _, _ => ls

/-- Node phase of `ensure_world_node_setup`: the five find-or-create
blocks, in source order, returning the final tree and the five role nodes
(out, bg, env, mapping, texcoord). -/
def ensureNodes (w : World R) :
    World R × Node R × Node R × Node R × Node R × Node R :=
  let p1 := findOrCreate w "World Output" "ShaderNodeOutputWorld" (600, 0)
  let p2 := findOrCreate p1.1 "HDRI Background" "ShaderNodeBackground" (400, 0)
  let p3 := findOrCreate p2.1 "HDRI Environment" "ShaderNodeTexEnvironment" (200, 0)
  let p4 := findOrCreate p3.1 "HDRI Mapping" "ShaderNodeMapping" (0, 0)
  let p5 := findOrCreate p4.1 "HDRI TexCoord" "ShaderNodeTexCoord" (-200, 0)
  (p5.1, p1.2, p2.2, p3.2, p4.2, p5.2)

/-- Link phase of `ensure_world_node_setup`: the four `link_once` calls,
in source order. -/
def ensureLinks (ls : List Link) (out bg env mp tc : Node R) : List Link :=
  let ls1 := link_once ls (outputGet tc "Generated") (inputGet mp "Vector")
  let ls2 := link_once ls1 (outputGet mp "Vector") (inputGet env "Vector")
  let ls3 := link_once ls2 (outputGet env "Color") (inputGet bg "Color")
  link_once ls3 (outputGet bg "Background") (inputGet out "Surface")

/-- World-level body of `ensure_world_node_setup`: set `use_nodes`, run
the node phase, then the link phase. -/
def ensureWorld (w0 : World R) : World R × Handles :=
  match ensureNodes { w0 with use_nodes := true } with
  | (w5, out, bg, env, mp, tc) =>
      ({ w5 with links := ensureLinks w5.links out bg env mp tc },
       { out := out.id, bg := bg.id, env := env.id,
         mapping := mp.id, texcoord := tc.id })

/-- The world `bpy.data.worlds.new("World")` yields before `use_nodes` is
enabled: an empty node tree. -/
def emptyWorld : World R :=
  { use_nodes := false, nodes := [], links := [], nextId := 0 }

/-- The world currently attached to scene `si`. -/
def sceneWorld (d : Data R) (si : Nat) : Option (World R) :=
  (d.scenes.get? si).bind (fun s => s.world)

/-- The `shdri_props` record of scene `si`. -/
def sceneProps (d : Data R) (si : Nat) : Option (Props R) :=
  (d.scenes.get? si).map (fun s => s.shdri_props)

/-- `ensure_world_node_setup(ctx)`: resolve a scene (else return `None`),
create its world when missing, run the world-level setup and hand back the
node handles. A dangling scene index (impossible through the live host) is
treated like a missing scene. -/
def ensure_world_node_setup (d : Data R) (gctx ctx : Option Ctx) :
    Data R × Option (Nat × Handles) :=
  match _safe_scene d gctx ctx with
  | none => (d, none)
  | some si =>
      match d.scenes.get? si with
      | none => (d, none)
      | some sc =>
          let res := ensureWorld (sc.world.getD emptyWorld)
          ({ d with scenes := d.scenes.set si { sc with world := some res.1 } },
           some (si, res.2))

/-- Rewrite the node with id `nid` (reference-semantics update through a
handle). -/
def updNode (w : World R) (nid : Nat) (f : Node R → Node R) : World R :=
  { w with nodes := w.nodes.map (fun n => if n.id = nid then f n else n) }

/-- Apply `updNode` inside the world of scene `si`. -/
def updNodeInScene (d : Data R) (si nid : Nat) (f : Node R → Node R) : Data R :=
  match d.scenes.get? si with
  | none => d
  | some sc =>
      match sc.world with
      | none => d
      | some w =>
          { d with scenes := d.scenes.set si { sc with world := some (updNode w nid f) } }

/-- Rewrite the `shdri_props` of scene `si`. -/
def updProps (d : Data R) (si : Nat) (f : Props R → Props R) : Data R :=
  match d.scenes.get? si with
  | none => d
  | some sc =>
      { d with scenes := d.scenes.set si { sc with shdri_props := f sc.shdri_props } }

/-- `apply_hdri_image(ctx, image)`: ensure the graph, then point the
environment node at the image when it is a 2D `'IMAGE'`, else clear it. -/
def apply_hdri_image (d : Data R) (gctx ctx : Option Ctx) (image : Option Image) :
    Data R :=
  match ensure_world_node_setup d gctx ctx with
  | (d1, none) => d1
  | (d1, some (si, h)) =>
      let v : Option Nat :=
        match image with
        | some img => if img.itype = "IMAGE" then some img.id else none
        | none => none
      updNodeInScene d1 si h.env (fun n => { n with image := v })

/-- `set_hdri_rotation_deg(ctx, degrees)`: ensure the graph, then write
`radians(degrees)` into the third rotation component of the mapping node,
keeping the first two components. -/
def set_hdri_rotation_deg (pi : R) (d : Data R) (gctx ctx : Option Ctx)
    (degrees : R) : Data R :=
  match ensure_world_node_setup d gctx ctx with
  | (d1, none) => d1
  | (d1, some (si, h)) =>
      updNodeInScene d1 si h.mapping
        (fun n => { n with rotation := (n.rotation.1, n.rotation.2.1, radians pi degrees) })

/-- `set_hdri_strength(ctx, strength)`: ensure the graph, then write the
value into the background node's strength input. -/
def set_hdri_strength (d : Data R) (gctx ctx : Option Ctx) (strength : R) :
    Data R :=
  match ensure_world_node_setup d gctx ctx with
  | (d1, none) => d1
  | (d1, some (si, h)) =>
      updNodeInScene d1 si h.bg (fun n => { n with strength := strength })

/-- `_update_image(self, context)`: apply the stored image pointer,
resolved against `bpy.data.images`. -/
def _update_image (d : Data R) (gctx ctx : Option Ctx) (self : Props R) : Data R :=
  apply_hdri_image d gctx ctx
    (self.image.bind (fun vid => d.images.find? (fun im => im.id == vid)))

/-- `_update_rotation(self, context)`. -/
def _update_rotation (pi : R) (d : Data R) (gctx ctx : Option Ctx)
    (self : Props R) : Data R :=
  set_hdri_rotation_deg pi d gctx ctx self.rotation_deg

/-- `_update_strength(self, context)`. -/
def _update_strength (d : Data R) (gctx ctx : Option Ctx) (self : Props R) : Data R :=
  set_hdri_strength d gctx ctx self.strength

/-- Host-side assignment `scene_si.shdri_props.image = v` (a
`PointerProperty`): store the pointer, then run `update=_update_image`. -/
def assign_image (d : Data R) (gctx ctx : Option Ctx) (si : Nat)
    (v : Option Nat) : Data R :=
  let d1 := updProps d si (fun p => { p with image := v })
  _update_image d1 gctx ctx { image := v, rotation_deg := 0, strength := 0 }

/-- Host-side assignment `scene_si.shdri_props.rotation_deg = v` (a
`FloatProperty` with only soft limits, so no clamping): store the value,
then run `update=_update_rotation`. -/
def assign_rotation_deg (pi : R) (d : Data R) (gctx ctx : Option Ctx)
    (si : Nat) (v : R) : Data R :=
  let d1 := updProps d si (fun p => { p with rotation_deg := v })
  _update_rotation pi d1 gctx ctx { image := none, rotation_deg := v, strength := 0 }

/-- Host-side assignment `scene_si.shdri_props.strength = v` (a
`FloatProperty` with `min=0.0`, so the host clamps the stored value from
below at `0`): store `max v 0`, then run `update=_update_strength`. -/
def assign_strength (d : Data R) (gctx ctx : Option Ctx) (si : Nat) (v : R) :
    Data R :=
  let v1 := max v 0
  let d1 := updProps d si (fun p => { p with strength := v1 })
  _update_strength d1 gctx ctx { image := none, rotation_deg := 0, strength := v1 }

/-- Shared tail of `SHDRI_OT_load_hdri.execute` once an image is at hand:
write it through the Property Store when a scene resolves, else apply it
directly to the graph; report success and finish. -/
def load_finish (d : Data R) (gctx ctx : Option Ctx) (img : Image) : OpOutcome R :=
  match _safe_scene d gctx ctx with
  | some si =>
      { data := assign_image d gctx ctx si (some img.id),
        result := .FINISHED,
        reports := [⟨"INFO", "HDRI loaded: " ++ img.name⟩] }
  | none =>
      { data := apply_hdri_image d gctx ctx (some img),
        result := .FINISHED,
        reports := [⟨"INFO", "HDRI loaded: " ++ img.name⟩] }

/-- `SHDRI_OT_load_hdri.execute(context)`. `abspath` models
`bpy.path.abspath`; `loader` models `bpy.data.images.load`, returning the
new datablock's name and type or raising the host's failure message. -/
def load_hdri_execute (d : Data R) (gctx ctx : Option Ctx) (filepath : String)
    (abspath : String → String) (loader : String → Except String (String × String)) :
    OpOutcome R :=
  if filepath = "" then
    { data := d, result := .CANCELLED, reports := [⟨"WARNING", "No file selected"⟩] }
  else
    match d.images.find? (fun i => abspath i.filepath == abspath filepath) with
    | some img => load_finish d gctx ctx img
    | none =>
        match loader filepath with
        | .error e =>
            { data := d, result := .CANCELLED,
              reports := [⟨"ERROR", "Failed to load image: " ++ e⟩] }
        | .ok (nm, ty) =>
            let img : Image :=
              { id := d.nextImageId, name := nm, filepath := filepath, itype := ty }
            let d1 : Data R :=
              { d with
                  images := d.images ++ [img],
                  nextImageId := d.nextImageId + 1 }
            load_finish d1 gctx ctx img

/-- `SHDRI_OT_reset.execute(context)`: cancel without a scene, otherwise
reset rotation to `0` and strength to `1` through the Property Store. -/
def reset_execute (pi : R) (d : Data R) (gctx ctx : Option Ctx) : OpOutcome R :=
  match _safe_scene d gctx ctx with
  | none => { data := d, result := .CANCELLED, reports := [] }
  | some si =>
      let d1 := assign_rotation_deg pi d gctx ctx si 0
      let d2 := assign_strength d1 gctx ctx si 1
      { data := d2, result := .FINISHED, reports := [⟨"INFO", "HDRI settings reset"⟩] }

/-! ### Observations on a world graph -/

/-- The five reserved role names with their node types. -/
def roles : List (String × String) :=
  [("World Output", "OUTPUT_WORLD"), ("HDRI Background", "BACKGROUND"),
   ("HDRI Environment", "TEX_ENVIRONMENT"), ("HDRI Mapping", "MAPPING"),
   ("HDRI TexCoord", "TEX_COORD")]

/-- The five reserved role names. -/
def roleNames : List String := roles.map (fun r => r.1)

/-- One of the four required connections, identified by role names and
socket names of its two endpoints. -/
structure RolePair where
  fromRole : String
  fromSock : String
  toRole : String
  toSock : String
deriving DecidableEq

/-- The four required connections of the pipeline. -/
def requiredPairs : List RolePair :=
  [⟨"HDRI TexCoord", "Generated", "HDRI Mapping", "Vector"⟩,
   ⟨"HDRI Mapping", "Vector", "HDRI Environment", "Vector"⟩,
   ⟨"HDRI Environment", "Color", "HDRI Background", "Color"⟩,
   ⟨"HDRI Background", "Background", "World Output", "Surface"⟩]

/-- Number of nodes carrying the name `s`. -/
def countNamed (w : World R) (s : String) : Nat :=
  (w.nodes.filter (fun n => n.name == s)).length

/-- `nodes.get(rname)`: the first node carrying the role name. -/
def roleFind (w : World R) (rname : String) : Option (Node R) :=
  w.nodes.find? (fun n => n.name == rname)

/-- Node lookup by id. -/
def nodeById (w : World R) (nid : Nat) : Option (Node R) :=
  w.nodes.find? (fun n => n.id == nid)

/-- Does the socket reference point at socket `sname` of a node named
`rname`? -/
def sockMatches (w : World R) (sref : SocketRef) (rname sname : String) : Bool :=
  (match nodeById w sref.node with
   | some n => n.name == rname
   | none => false) && sref.sock == sname

/-- Does the link realize the required connection `p`? -/
def linkMatches (w : World R) (p : RolePair) (l : Link) : Bool :=
  sockMatches w l.from_socket p.fromRole p.fromSock &&
  sockMatches w l.to_socket p.toRole p.toSock

/-- Number of links realizing the required connection `p`. -/
def countPair (w : World R) (p : RolePair) : Nat :=
  (w.links.filter (linkMatches w p)).length

/-- Node identities are distinct, and the fresh-id counter is ahead of all
of them (host invariant of any live node collection). -/
def idsOk (w : World R) : Prop :=
  (∀ n ∈ w.nodes, n.id < w.nextId) ∧ w.nodes.Pairwise (fun a b => a.id ≠ b.id)

/-- Every link connects sockets of nodes that exist in the tree (host
invariant of any live node tree). -/
def linksOk (w : World R) : Prop :=
  ∀ l ∈ w.links, (∃ n ∈ w.nodes, n.id = l.from_socket.node) ∧
    (∃ n ∈ w.nodes, n.id = l.to_socket.node)

/-- Any node bearing a reserved role name has the matching type. -/
def rolesOk (w : World R) : Prop :=
  ∀ n ∈ w.nodes, ∀ r ∈ roles, n.name = r.1 → n.ntype = r.2

/-- Each reserved role name is carried by at most one node. -/
def namesOk (w : World R) : Prop := ∀ r ∈ roleNames, countNamed w r ≤ 1

/-- Each required connection is realized by at most one link. -/
def pairsOk (w : World R) : Prop := ∀ p ∈ requiredPairs, countPair w p ≤ 1

/-- A host-consistent world graph on which the reserved names are not
abused: the well-formedness under which the synchronizer is idempotent. -/
def tidy (w : World R) : Prop :=
  idsOk w ∧ linksOk w ∧ rolesOk w ∧ namesOk w ∧ pairsOk w

/-- The five role nodes are present with the right types, each reachable
by its reserved name. -/
def establishedNodes (w : World R) : Prop :=
  ∀ r ∈ roles, ∃ n, roleFind w r.1 = some n ∧ n.ntype = r.2

/-- The four required links are present between the role nodes. -/
def establishedLinks (w : World R) : Prop :=
  ∀ p ∈ requiredPairs, ∃ a b, roleFind w p.fromRole = some a ∧
    roleFind w p.toRole = some b ∧
    (⟨⟨a.id, p.fromSock⟩, ⟨b.id, p.toSock⟩⟩ : Link) ∈ w.links

/-- The pipeline is fully in place: a second synchronizer run finds
everything and changes nothing. -/
def established (w : World R) : Prop :=
  w.use_nodes = true ∧ establishedNodes w ∧ establishedLinks w

/-! ### List and lookup helper lemmas -/

theorem get?_set_self {α : Type} {l : List α} {i : Nat} {x : α}
    (h : l.get? i = some x) (y : α) : (l.set i y).get? i = some y := by
  induction l generalizing i with
  | nil => cases h
  | cons a as ih =>
    cases i with
    | zero => rfl
    | succ n => exact ih h

theorem set_self_of_get? {α : Type} {l : List α} {i : Nat} {x : α}
    (h : l.get? i = some x) : l.set i x = l := by
  induction l generalizing i with
  | nil => rfl
  | cons a as ih =>
    cases i with
    | zero =>
      have h1 : a = x := by injection h
      rw [← h1]
      rfl
    | succ n =>
      show a :: as.set n x = a :: as
      rw [ih h]

theorem isEmpty_set {α : Type} (l : List α) (i : Nat) (y : α) :
    (l.set i y).isEmpty = l.isEmpty := by
  cases l with
  | nil => rfl
  | cons a as =>
    cases i with
    | zero => rfl
    | succ n => rfl

theorem find?_id_of_mem {l : List (Node R)} {n : Node R}
    (hp : l.Pairwise (fun a b => a.id ≠ b.id)) (hm : n ∈ l) :
    l.find? (fun x => x.id == n.id) = some n := by
  induction l with
  | nil => cases hm
  | cons a as ih =>
    rcases List.mem_cons.1 hm with rfl | hm'
    · exact List.find?_cons_of_pos _ (by simp)
    · have hne : ¬ (a.id == n.id) = true := by
        simp only [beq_iff_eq]
        exact (List.pairwise_cons.1 hp).1 n hm'
      rw [show List.find? (fun x => x.id == n.id) (a :: as) =
          List.find? (fun x => x.id == n.id) as from List.find?_cons_of_neg as hne]
      exact ih (List.pairwise_cons.1 hp).2 hm'

theorem roleFind_name {w : World R} {s : String} {n : Node R}
    (h : roleFind w s = some n) : n.name = s := by
  simpa using List.find?_some h

theorem roleFind_mem {w : World R} {s : String} {n : Node R}
    (h : roleFind w s = some n) : n ∈ w.nodes :=
  List.mem_of_find?_eq_some h

theorem countNamed_pos_of_roleFind {w : World R} {s : String} {n : Node R}
    (h : roleFind w s = some n) : 1 ≤ countNamed w s := by
  have hm : n ∈ w.nodes.filter (fun x => x.name == s) :=
    List.mem_filter.2 ⟨roleFind_mem h, by simp [roleFind_name h]⟩
  exact List.length_pos_of_mem hm

theorem countNamed_zero_of_roleFind_none {w : World R} {s : String}
    (h : roleFind w s = none) : countNamed w s = 0 := by
  unfold countNamed
  rw [List.length_eq_zero, List.filter_eq_nil_iff]
  intro a ha
  simpa using (List.find?_eq_none.1 h) a ha

theorem roleFind_some_of_count {w : World R} {s : String}
    (h : 1 ≤ countNamed w s) : ∃ x, roleFind w s = some x := by
  cases hf : roleFind w s with
  | some x => exact ⟨x, rfl⟩
  | none =>
    rw [countNamed_zero_of_roleFind_none hf] at h
    exact absurd h (by omega)

theorem name_unique {w : World R} {s : String} {x y : Node R}
    (hc : countNamed w s = 1) (hx : x ∈ w.nodes) (hy : y ∈ w.nodes)
    (hxs : x.name = s) (hys : y.name = s) : x = y := by
  have hxf : x ∈ w.nodes.filter (fun n => n.name == s) :=
    List.mem_filter.2 ⟨hx, by simp [hxs]⟩
  have hyf : y ∈ w.nodes.filter (fun n => n.name == s) :=
    List.mem_filter.2 ⟨hy, by simp [hys]⟩
  obtain ⟨a, ha⟩ := List.length_eq_one.1 hc
  rw [ha, List.mem_singleton] at hxf hyf
  rw [hxf, hyf]

theorem ids_ne_of_ne {w : World R} {x y : Node R}
    (hp : w.nodes.Pairwise (fun a b => a.id ≠ b.id))
    (hx : x ∈ w.nodes) (hy : y ∈ w.nodes) (hne : x ≠ y) : x.id ≠ y.id :=
  hp.forall (fun {a b} h => (h ∘ Eq.symm : b.id ≠ a.id)) hx hy hne

/-- The four links the synchronizer may create, expressed through the
handles it returns. -/
def candidateLinks (h : Handles) : List Link :=
  [⟨⟨h.texcoord, "Generated"⟩, ⟨h.mapping, "Vector"⟩⟩,
   ⟨⟨h.mapping, "Vector"⟩, ⟨h.env, "Vector"⟩⟩,
   ⟨⟨h.env, "Color"⟩, ⟨h.bg, "Color"⟩⟩,
   ⟨⟨h.bg, "Background"⟩, ⟨h.out, "Surface"⟩⟩]

/-! ### Lemmas about findOrCreate, link_once and the two phases -/

theorem fc_ret (w : World R) (rn idn : String) (loc : Int × Int) :
    ((findOrCreate w rn idn loc).2).name = rn ∧
    ((findOrCreate w rn idn loc).2).ntype = nodeTypeOf idn := by
  unfold findOrCreate
  cases hf : w.nodes.find? (fun n => n.name == rn) with
  | none => exact ⟨rfl, rfl⟩
  | some n =>
    have hn : n.name = rn := by simpa using List.find?_some hf
    by_cases ht : n.ntype = nodeTypeOf idn
    · simp [ht, hn]
    · simp [ht, mkNode]

theorem fc_found {w : World R} {rn idn : String} {q : Int × Int} {n : Node R}
    (hf : w.nodes.find? (fun x => x.name == rn) = some n)
    (ht : n.ntype = nodeTypeOf idn) :
    findOrCreate w rn idn q = (w, n) := by
  unfold findOrCreate
  rw [hf]
  simp [ht]

theorem fc_cases (w : World R) (rn idn : String) (loc : Int × Int) :
    (findOrCreate w rn idn loc = (w, (findOrCreate w rn idn loc).2) ∧
      w.nodes.find? (fun x => x.name == rn) = some (findOrCreate w rn idn loc).2) ∨
    (findOrCreate w rn idn loc =
      ({ w with
          nodes := w.nodes ++ [mkNode w.nextId rn idn loc],
          nextId := w.nextId + 1 }, mkNode w.nextId rn idn loc) ∧
      (w.nodes.find? (fun x => x.name == rn) = none ∨
        ∃ n0, w.nodes.find? (fun x => x.name == rn) = some n0 ∧
          n0.ntype ≠ nodeTypeOf idn)) := by
  unfold findOrCreate
  cases hf : w.nodes.find? (fun n => n.name == rn) with
  | none => exact Or.inr ⟨rfl, Or.inl rfl⟩
  | some n =>
    by_cases ht : n.ntype = nodeTypeOf idn
    · exact Or.inl (by simp [ht, hf])
    · exact Or.inr ⟨by simp [ht], Or.inr ⟨n, rfl, ht⟩⟩

theorem link_once_mem_iff (ls : List Link) (f t : SocketRef) :
    (ls.any (fun l => l.to_socket == t && l.from_socket == f)) = true ↔
      (⟨f, t⟩ : Link) ∈ ls := by
  rw [List.any_eq_true]
  constructor
  · rintro ⟨l, hl, hp⟩
    simp only [Bool.and_eq_true, beq_iff_eq] at hp
    obtain ⟨h1, h2⟩ := hp
    cases l
    cases h1
    cases h2
    exact hl
  · intro h
    exact ⟨_, h, by simp⟩

theorem link_once_of_mem {ls : List Link} {f t : SocketRef}
    (h : (⟨f, t⟩ : Link) ∈ ls) : link_once ls (some f) (some t) = ls := by
  have hc : (ls.any fun l => l.to_socket == t && l.from_socket == f) = true :=
    (link_once_mem_iff ls f t).2 h
  simp [link_once, hc]

theorem link_once_of_not_mem {ls : List Link} {f t : SocketRef}
    (h : (⟨f, t⟩ : Link) ∉ ls) :
    link_once ls (some f) (some t) = ls ++ [⟨f, t⟩] := by
  have hc : ¬ (ls.any fun l => l.to_socket == t && l.from_socket == f) = true :=
    fun hx => h ((link_once_mem_iff ls f t).1 hx)
  simp [link_once, hc]

theorem link_once_frame (ls : List Link) (fs ts : Option SocketRef) :
    ∃ ad, link_once ls fs ts = ls ++ ad ∧
      (ad = [] ∨ ∃ f t, fs = some f ∧ ts = some t ∧ ad = [⟨f, t⟩]) := by
  match fs, ts with
  | none, _ => exact ⟨[], by simp [link_once], Or.inl rfl⟩
  | some f, none => exact ⟨[], by simp [link_once], Or.inl rfl⟩
  | some f, some t =>
    by_cases h : (⟨f, t⟩ : Link) ∈ ls
    · exact ⟨[], by simp [link_once_of_mem h], Or.inl rfl⟩
    · exact ⟨[⟨f, t⟩], link_once_of_not_mem h, Or.inr ⟨f, t, rfl, rfl, rfl⟩⟩

theorem outputGet_eq {n : Node R} {ty s : String} (h : n.ntype = ty)
    (hs : s ∈ outputsOf ty) : outputGet n s = some ⟨n.id, s⟩ := by
  simp [outputGet, h, hs]

theorem inputGet_eq {n : Node R} {ty s : String} (h : n.ntype = ty)
    (hs : s ∈ inputsOf ty) : inputGet n s = some ⟨n.id, s⟩ := by
  simp [inputGet, h, hs]

theorem outputGet_some {n : Node R} {s : String} {f : SocketRef}
    (h : outputGet n s = some f) : f = ⟨n.id, s⟩ := by
  unfold outputGet at h
  split at h
  · exact (Option.some_injective _ h).symm
  · cases h

theorem inputGet_some {n : Node R} {s : String} {f : SocketRef}
    (h : inputGet n s = some f) : f = ⟨n.id, s⟩ := by
  unfold inputGet at h
  split at h
  · exact (Option.some_injective _ h).symm
  · cases h

theorem fc_basic {w W : World R} {nn : Node R} {rn idn : String} {loc : Int × Int}
    (h : findOrCreate w rn idn loc = (W, nn)) :
    W.links = w.links ∧ W.use_nodes = w.use_nodes ∧ w.nextId ≤ W.nextId ∧
    (idsOk w → idsOk W) ∧
    (∀ nd ∈ w.nodes, nd ∈ W.nodes) ∧
    (∀ nd ∈ W.nodes, nd ∈ w.nodes ∨ w.nextId ≤ nd.id) ∧
    nn ∈ W.nodes ∧ nn.name = rn ∧ nn.ntype = nodeTypeOf idn ∧
    (∀ (s : String) (x : Node R), roleFind w s = some x → roleFind W s = some x) := by
  have hname : nn.name = rn := by
    have hx := (fc_ret w rn idn loc).1
    rwa [h] at hx
  have hntype : nn.ntype = nodeTypeOf idn := by
    have hx := (fc_ret w rn idn loc).2
    rwa [h] at hx
  rcases fc_cases w rn idn loc with ⟨he, hfind⟩ | ⟨he, hmiss⟩
  · rw [h] at he hfind
    have hW : W = w := congrArg Prod.fst he
    subst hW
    refine ⟨rfl, rfl, le_refl _, id, fun nd hx => hx, fun nd hx => Or.inl hx,
      ?_, hname, hntype, fun s x hx => hx⟩
    exact List.mem_of_find?_eq_some hfind
  · rw [h] at he
    have hW : W = { w with
        nodes := w.nodes ++ [mkNode w.nextId rn idn loc],
        nextId := w.nextId + 1 } := congrArg Prod.fst he
    have hnn : nn = mkNode w.nextId rn idn loc := congrArg Prod.snd he
    subst hW
    refine ⟨rfl, rfl, Nat.le_succ _, ?_, fun nd hx => List.mem_append_left _ hx,
      ?_, ?_, hname, hntype, ?_⟩
    · rintro ⟨hb, hpw⟩
      constructor
      · intro nd hnd
        rcases List.mem_append.1 hnd with hx | hx
        · exact lt_trans (hb nd hx) (Nat.lt_succ_self _)
        · rw [List.mem_singleton.1 hx]
          exact Nat.lt_succ_self _
      · rw [List.pairwise_append]
        refine ⟨hpw, List.pairwise_singleton _ _, ?_⟩
        intro x hx y hy
        rw [List.mem_singleton.1 hy]
        exact Nat.ne_of_lt (hb x hx)
    · intro nd hnd
      rcases List.mem_append.1 hnd with hx | hx
      · exact Or.inl hx
      · rw [List.mem_singleton.1 hx]
        exact Or.inr (le_refl _)
    · rw [hnn]
      exact List.mem_append_right _ (List.mem_singleton_self _)
    · intro s x hx
      unfold roleFind at hx ⊢
      rw [List.find?_append, hx]
      rfl

/-- Invariant carried through the node phase: host-consistent ids,
role-name discipline, and at-most-one node per reserved name. -/
def phaseOk (w : World R) : Prop := idsOk w ∧ rolesOk w ∧ namesOk w

theorem fc_step {w W : World R} {nn : Node R} {rn idn : String} {loc : Int × Int}
    (h : findOrCreate w rn idn loc = (W, nn))
    (hmem : (rn, nodeTypeOf idn) ∈ roles)
    (huniq : ∀ r ∈ roles, r.1 = rn → r.2 = nodeTypeOf idn)
    (hOk : phaseOk w) :
    phaseOk W ∧
    roleFind W rn = some nn ∧
    countNamed W rn = 1 ∧
    (∀ s, s ≠ rn → roleFind W s = roleFind w s) ∧
    (∀ s, s ≠ rn → countNamed W s = countNamed w s) := by
  obtain ⟨hids, hro, hnm⟩ := hOk
  have hrname : rn ∈ roleNames := List.mem_map_of_mem (fun r => r.1) hmem
  obtain ⟨hlk, hu, hx, hidp, hsub, hdec, hmemW, hname, hntype, hstabl⟩ := fc_basic h
  rcases fc_cases w rn idn loc with ⟨he, hfind⟩ | ⟨he, hmiss⟩
  · have hW : W = w := by
      rw [h] at he
      exact congrArg Prod.fst he
    have hnnfind : roleFind w rn = some nn := by
      rw [h] at hfind
      exact hfind
    have hcount : countNamed w rn = 1 :=
      Nat.le_antisymm (hnm rn hrname) (countNamed_pos_of_roleFind hnnfind)
    rw [hW]
    exact ⟨⟨hids, hro, hnm⟩, hnnfind, hcount, fun s _ => rfl, fun s _ => rfl⟩
  · have hfind0 : roleFind w rn = none := by
      rcases hmiss with h0 | ⟨n0, h0, hbad⟩
      · exact h0
      · exact absurd (hro n0 (List.mem_of_find?_eq_some h0) (rn, nodeTypeOf idn) hmem
          (by simpa using List.find?_some h0)) hbad
    have hW : W = { w with
        nodes := w.nodes ++ [mkNode w.nextId rn idn loc],
        nextId := w.nextId + 1 } := by
      rw [h] at he
      exact congrArg Prod.fst he
    have hnn : nn = mkNode w.nextId rn idn loc := by
      rw [h] at he
      exact congrArg Prod.snd he
    have hcnt0 : countNamed w rn = 0 := countNamed_zero_of_roleFind_none hfind0
    subst hW
    have hcount : ∀ s : String,
        countNamed ({ w with
          nodes := w.nodes ++ [mkNode w.nextId rn idn loc],
          nextId := w.nextId + 1 } : World R) s =
        countNamed w s + (if rn = s then 1 else 0) := by
      intro s
      unfold countNamed
      dsimp only
      rw [List.filter_append, List.length_append]
      congr 1
      by_cases hs : rn = s
      · subst hs
        simp [mkNode]
      · simp [mkNode, hs]
    have hrfself : roleFind ({ w with
        nodes := w.nodes ++ [mkNode w.nextId rn idn loc],
        nextId := w.nextId + 1 } : World R) rn = some nn := by
      unfold roleFind at hfind0 ⊢
      dsimp only
      rw [List.find?_append, hfind0, Option.none_or]
      rw [hnn]
      exact List.find?_cons_of_pos _ (by simp [mkNode])
    have hrfother : ∀ s, s ≠ rn → roleFind ({ w with
        nodes := w.nodes ++ [mkNode w.nextId rn idn loc],
        nextId := w.nextId + 1 } : World R) s = roleFind w s := by
      intro s hs
      unfold roleFind
      dsimp only
      rw [List.find?_append]
      have hne : ¬ (rn = s) := fun hx => hs hx.symm
      rw [show List.find? (fun n => n.name == s) [mkNode w.nextId rn idn loc] = none by
        simp [mkNode, hne]]
      exact Option.or_none
    refine ⟨⟨hidp hids, ?_, ?_⟩, hrfself, ?_, hrfother, ?_⟩
    · intro n hn r hr hnr
      rcases List.mem_append.1 hn with hx | hx
      · exact hro n hx r hr hnr
      · rw [List.mem_singleton.1 hx] at hnr ⊢
        have : r.1 = rn := by
          rw [← hnr]
          rfl
        rw [show (mkNode w.nextId rn idn loc : Node R).ntype = nodeTypeOf idn from rfl]
        exact (huniq r hr this).symm
    · intro r hr
      rw [hcount r]
      by_cases hs : rn = r
      · subst hs
        rw [hcnt0]
        simp
      · simp only [if_neg hs, Nat.add_zero]
        exact hnm r hr
    · rw [hcount rn, hcnt0, if_pos rfl]
    · intro s hs
      rw [hcount s, if_neg (fun hx : rn = s => hs hx.symm), Nat.add_zero]

/-- Frame relation between a tree and a later state of it: nodes and links
only appended, appended nodes bear reserved names, `use_nodes` untouched,
fresh-id counter monotone. -/
def frameLe (w w2 : World R) : Prop :=
  (∃ ns, w2.nodes = w.nodes ++ ns ∧ ∀ n ∈ ns, n.name ∈ roleNames) ∧
  w2.links = w.links ∧ w2.use_nodes = w.use_nodes ∧ w.nextId ≤ w2.nextId

theorem frameLe_refl (w : World R) : frameLe w w :=
  ⟨⟨[], by simp, by simp⟩, rfl, rfl, le_refl _⟩

theorem frameLe_trans {w1 w2 w3 : World R} (h1 : frameLe w1 w2)
    (h2 : frameLe w2 w3) : frameLe w1 w3 := by
  obtain ⟨⟨ns1, e1, m1⟩, l1, u1, i1⟩ := h1
  obtain ⟨⟨ns2, e2, m2⟩, l2, u2, i2⟩ := h2
  refine ⟨⟨ns1 ++ ns2, ?_, ?_⟩, ?_, ?_, ?_⟩
  · rw [e2, e1, List.append_assoc]
  · intro n hn
    rcases List.mem_append.1 hn with hx | hx
    · exact m1 n hx
    · exact m2 n hx
  · rw [l2, l1]
  · rw [u2, u1]
  · exact le_trans i1 i2

theorem fc_frameLe (w : World R) (rn idn : String) (loc : Int × Int)
    (hrn : rn ∈ roleNames) : frameLe w (findOrCreate w rn idn loc).1 := by
  rcases fc_cases w rn idn loc with ⟨he, _⟩ | ⟨he, _⟩
  · rw [he]
    exact frameLe_refl w
  · rw [he]
    refine ⟨⟨[mkNode w.nextId rn idn loc], rfl, ?_⟩, rfl, rfl, Nat.le_succ _⟩
    intro n hn
    have hx := List.mem_singleton.1 hn
    subst hx
    exact hrn

theorem ensureNodes_frameLe (w : World R) : frameLe w (ensureNodes w).1 := by
  simp only [ensureNodes]
  exact frameLe_trans (fc_frameLe w "World Output" "ShaderNodeOutputWorld" (600, 0) (by decide))
    (frameLe_trans (fc_frameLe _ "HDRI Background" "ShaderNodeBackground" (400, 0) (by decide))
      (frameLe_trans (fc_frameLe _ "HDRI Environment" "ShaderNodeTexEnvironment" (200, 0) (by decide))
        (frameLe_trans (fc_frameLe _ "HDRI Mapping" "ShaderNodeMapping" (0, 0) (by decide))
          (fc_frameLe _ "HDRI TexCoord" "ShaderNodeTexCoord" (-200, 0) (by decide)))))

theorem ensureLinks_frame (ls : List Link) (o b e m t : Node R) :
    ∃ ad, ensureLinks ls o b e m t = ls ++ ad ∧
      ∀ l ∈ ad, l ∈ candidateLinks ⟨o.id, b.id, e.id, m.id, t.id⟩ := by
  obtain ⟨a1, h1, s1⟩ :=
    link_once_frame ls (outputGet t "Generated") (inputGet m "Vector")
  obtain ⟨a2, h2, s2⟩ :=
    link_once_frame (link_once ls (outputGet t "Generated") (inputGet m "Vector"))
      (outputGet m "Vector") (inputGet e "Vector")
  obtain ⟨a3, h3, s3⟩ :=
    link_once_frame (link_once (link_once ls (outputGet t "Generated") (inputGet m "Vector"))
        (outputGet m "Vector") (inputGet e "Vector"))
      (outputGet e "Color") (inputGet b "Color")
  obtain ⟨a4, h4, s4⟩ :=
    link_once_frame (link_once (link_once (link_once ls (outputGet t "Generated")
          (inputGet m "Vector")) (outputGet m "Vector") (inputGet e "Vector"))
        (outputGet e "Color") (inputGet b "Color"))
      (outputGet b "Background") (inputGet o "Surface")
  refine ⟨a1 ++ a2 ++ a3 ++ a4, ?_, ?_⟩
  · simp only [ensureLinks]
    rw [h4, h3, h2, h1]
    simp [List.append_assoc]
  · intro l hl
    simp only [List.append_assoc, List.mem_append] at hl
    rcases hl with hx | hx | hx | hx
    · rcases s1 with rfl | ⟨f, t', hf, ht, rfl⟩
      · cases hx
      · have := List.mem_singleton.1 hx
        subst this
        rw [outputGet_some hf, inputGet_some ht]
        simp [candidateLinks]
    · rcases s2 with rfl | ⟨f, t', hf, ht, rfl⟩
      · cases hx
      · have := List.mem_singleton.1 hx
        subst this
        rw [outputGet_some hf, inputGet_some ht]
        simp [candidateLinks]
    · rcases s3 with rfl | ⟨f, t', hf, ht, rfl⟩
      · cases hx
      · have := List.mem_singleton.1 hx
        subst this
        rw [outputGet_some hf, inputGet_some ht]
        simp [candidateLinks]
    · rcases s4 with rfl | ⟨f, t', hf, ht, rfl⟩
      · cases hx
      · have := List.mem_singleton.1 hx
        subst this
        rw [outputGet_some hf, inputGet_some ht]
        simp [candidateLinks]

/-- C2: on any pre-existing world graph, the synchronizer only appends:
every pre-existing node and link survives verbatim (in place), every
appended node bears one of the five reserved names, and every appended
link is one of the four required connections between the synchronizer's
own role nodes. Nothing is deleted or rewired. -/
theorem ensure_graph_frame {R : Type} [LinearOrderedField R] (w : World R) :
    ∃ ns ladd,
      (ensureWorld w).1.nodes = w.nodes ++ ns ∧
      (ensureWorld w).1.links = w.links ++ ladd ∧
      (∀ n ∈ ns, n.name ∈ roleNames) ∧
      (∀ l ∈ ladd, l ∈ candidateLinks (ensureWorld w).2) := by
  obtain ⟨⟨ns, hn, hm⟩, hl, hu, hi⟩ :=
    ensureNodes_frameLe (R := R) { w with use_nodes := true }
  rcases hEN : ensureNodes ({ w with use_nodes := true } : World R) with
    ⟨w5, o, b, e, m, t⟩
  rw [hEN] at hn hl
  obtain ⟨ad, hlnk, hcand⟩ := ensureLinks_frame w5.links o b e m t
  have hew : ensureWorld w =
      ({ w5 with links := ensureLinks w5.links o b e m t },
       { out := o.id, bg := b.id, env := e.id, mapping := m.id, texcoord := t.id }) := by
    unfold ensureWorld
    rw [hEN]
  refine ⟨ns, ad, ?_, ?_, hm, ?_⟩
  · rw [hew]
    exact hn
  · rw [hew]
    show ensureLinks w5.links o b e m t = w.links ++ ad
    rw [hlnk]
    exact congrArg (fun x => x ++ ad) hl
  · rw [hew]
    exact hcand

/-! ### Claim theorems: scene resolution and load failure -/

/-- C10: `_safe_scene` returns the invocation context's scene when
present, otherwise the global context's scene when present, otherwise the
first scene of the scene collection when non-empty, and `none` only when
the host has no scenes at all. -/
theorem safe_scene_resolution {R : Type} [LinearOrderedField R]
    (d : Data R) (gctx ctx : Option Ctx) :
    (∀ c s, ctx = some c → c.scene = some s → _safe_scene d gctx ctx = some s) ∧
    ((ctx = none ∨ ∃ c, ctx = some c ∧ c.scene = none) →
      ∀ g s, gctx = some g → g.scene = some s → _safe_scene d gctx ctx = some s) ∧
    ((ctx = none ∨ ∃ c, ctx = some c ∧ c.scene = none) →
      (gctx = none ∨ ∃ g, gctx = some g ∧ g.scene = none) →
      d.scenes ≠ [] → _safe_scene d gctx ctx = some 0) ∧
    ((ctx = none ∨ ∃ c, ctx = some c ∧ c.scene = none) →
      (gctx = none ∨ ∃ g, gctx = some g ∧ g.scene = none) →
      d.scenes = [] → _safe_scene d gctx ctx = none) := by
  refine ⟨?_, ?_, ?_, ?_⟩
  · rintro c s rfl hs
    simp [_safe_scene, hs]
  · rintro (rfl | ⟨c, rfl, hc⟩) g s rfl hs
    · simp [_safe_scene, hs]
    · simp [_safe_scene, hc, globalFallback, hs]
  · rintro (rfl | ⟨c, rfl, hc⟩) (rfl | ⟨g, rfl, hg⟩) hne
    · simp [_safe_scene, globalFallback, hne]
    · simp [_safe_scene, globalFallback, hg, hne]
    · simp [_safe_scene, hc, globalFallback, hne]
    · simp [_safe_scene, hc, globalFallback, hg, hne]
  · rintro (rfl | ⟨c, rfl, hc⟩) (rfl | ⟨g, rfl, hg⟩) he
    · simp [_safe_scene, globalFallback, he]
    · simp [_safe_scene, globalFallback, hg, he]
    · simp [_safe_scene, hc, globalFallback, he]
    · simp [_safe_scene, hc, globalFallback, hg, he]

/-- Witness for C10: with a sceneless invocation context, a global context
without a scene, and one scene in the collection, resolution falls back to
scene 0. -/
theorem safe_scene_resolution_witness :
    _safe_scene (R := ℚ)
      ⟨[⟨none, ⟨none, 0, 1⟩⟩], [], 0⟩ (some ⟨none⟩) (some ⟨none⟩) = some 0 :=
  (safe_scene_resolution ⟨[⟨none, ⟨none, 0, 1⟩⟩], [], 0⟩
      (some ⟨none⟩) (some ⟨none⟩)).2.2.1
    (Or.inr ⟨⟨none⟩, rfl, rfl⟩) (Or.inr ⟨⟨none⟩, rfl, rfl⟩) (by simp)

/-- C7: `load_hdri` with an empty filepath returns cancelled with a
warning and mutates nothing; when the host loader fails, it reports the
host's failure message verbatim and leaves all state (Property Store,
graph, image collection) unchanged. -/
theorem load_failure_no_mutation {R : Type} [LinearOrderedField R]
    (d : Data R) (gctx ctx : Option Ctx) (abspath : String → String)
    (loader : String → Except String (String × String)) :
    (∀ fp, fp = "" →
      load_hdri_execute d gctx ctx fp abspath loader =
        ⟨d, .CANCELLED, [⟨"WARNING", "No file selected"⟩]⟩) ∧
    (∀ fp e, fp ≠ "" →
      d.images.find? (fun i => abspath i.filepath == abspath fp) = none →
      loader fp = .error e →
      load_hdri_execute d gctx ctx fp abspath loader =
        ⟨d, .CANCELLED, [⟨"ERROR", "Failed to load image: " ++ e⟩]⟩) := by
  constructor
  · rintro fp rfl
    simp [load_hdri_execute]
  · intro fp e hfp hfind hld
    simp [load_hdri_execute, hfp, hfind, hld]

/-! ### Invariance and no-scene lemmas -/

theorem ensure_images (d : Data R) (g c : Option Ctx) :
    (ensure_world_node_setup d g c).1.images = d.images := by
  unfold ensure_world_node_setup
  split
  · rfl
  · split
    · rfl
    · rfl

theorem updNodeInScene_images (d : Data R) (si nid : Nat) (f : Node R → Node R) :
    (updNodeInScene d si nid f).images = d.images := by
  unfold updNodeInScene
  split
  · rfl
  · split
    · rfl
    · rfl

theorem updProps_images (d : Data R) (si : Nat) (f : Props R → Props R) :
    (updProps d si f).images = d.images := by
  unfold updProps
  split
  · rfl
  · rfl

theorem apply_hdri_image_images (d : Data R) (g c : Option Ctx) (im : Option Image) :
    (apply_hdri_image d g c im).images = d.images := by
  have hi := ensure_images d g c
  unfold apply_hdri_image
  cases he : ensure_world_node_setup d g c with
  | mk d1 r =>
    rw [he] at hi
    cases r with
    | none => exact hi
    | some p =>
      cases p with
      | mk si h => rw [updNodeInScene_images]; exact hi

theorem assign_image_images (d : Data R) (g c : Option Ctx) (si : Nat)
    (v : Option Nat) : (assign_image d g c si v).images = d.images := by
  unfold assign_image _update_image
  rw [apply_hdri_image_images, updProps_images]

theorem load_finish_images (d : Data R) (g c : Option Ctx) (img : Image) :
    (load_finish d g c img).data.images = d.images := by
  unfold load_finish
  split
  · exact assign_image_images d g c _ (some img.id)
  · exact apply_hdri_image_images d g c (some img)

theorem safe_scene_congr {d1 d2 : Data R} (h : d1.scenes = d2.scenes)
    (g c : Option Ctx) : _safe_scene d1 g c = _safe_scene d2 g c := by
  unfold _safe_scene globalFallback
  rw [h]

theorem safe_some_of_nonempty {d : Data R} (g c : Option Ctx)
    (he : d.scenes ≠ []) : ∃ k, _safe_scene d g c = some k := by
  have hie : d.scenes.isEmpty = false := by simpa using he
  unfold _safe_scene globalFallback
  rcases c with _ | ⟨_ | cs⟩
  · rcases g with _ | ⟨_ | gs⟩
    · exact ⟨0, by simp [hie]⟩
    · exact ⟨0, by simp [hie]⟩
    · exact ⟨gs, rfl⟩
  · rcases g with _ | ⟨_ | gs⟩
    · exact ⟨0, by simp [hie]⟩
    · exact ⟨0, by simp [hie]⟩
    · exact ⟨gs, rfl⟩
  · exact ⟨cs, rfl⟩

theorem scenes_empty_of_safe_none {d : Data R} {g c : Option Ctx}
    (h : _safe_scene d g c = none) : d.scenes = [] := by
  by_cases he : d.scenes = []
  · exact he
  · obtain ⟨k, hk⟩ := safe_some_of_nonempty (d := d) g c he
    rw [hk] at h
    cases h

theorem ensure_noscene {d : Data R} {g c : Option Ctx}
    (h : _safe_scene d g c = none) :
    ensure_world_node_setup d g c = (d, none) := by
  unfold ensure_world_node_setup
  rw [h]

theorem apply_noscene {d : Data R} {g c : Option Ctx}
    (h : _safe_scene d g c = none) (im : Option Image) :
    apply_hdri_image d g c im = d := by
  unfold apply_hdri_image
  rw [ensure_noscene h]

theorem updProps_empty {d : Data R} (hsc : d.scenes = []) (si : Nat)
    (f : Props R → Props R) : updProps d si f = d := by
  unfold updProps
  rw [hsc]
  rfl

theorem load_finish_noscene {d : Data R} {g c : Option Ctx}
    (h : _safe_scene d g c = none) (img : Image) :
    load_finish d g c img =
      ⟨d, .FINISHED, [⟨"INFO", "HDRI loaded: " ++ img.name⟩]⟩ := by
  unfold load_finish
  rw [h, apply_noscene h]

/-! ### Unconditional shape of a full synchronizer run -/

theorem ensureWorld_basic (w : World R) :
    ∃ (w1 : World R) (o b e m t : Node R),
      ensureWorld w = (w1, ⟨o.id, b.id, e.id, m.id, t.id⟩) ∧
      w1.use_nodes = true ∧
      (idsOk w → idsOk w1) ∧
      (∀ nd ∈ w.nodes, nd ∈ w1.nodes) ∧
      (∀ nd ∈ w1.nodes, nd ∈ w.nodes ∨ w.nextId ≤ nd.id) ∧
      o ∈ w1.nodes ∧ b ∈ w1.nodes ∧ e ∈ w1.nodes ∧ m ∈ w1.nodes ∧ t ∈ w1.nodes ∧
      o.name = "World Output" ∧ o.ntype = "OUTPUT_WORLD" ∧
      b.name = "HDRI Background" ∧ b.ntype = "BACKGROUND" ∧
      e.name = "HDRI Environment" ∧ e.ntype = "TEX_ENVIRONMENT" ∧
      m.name = "HDRI Mapping" ∧ m.ntype = "MAPPING" ∧
      t.name = "HDRI TexCoord" ∧ t.ntype = "TEX_COORD" ∧
      (∀ (s : String) (x : Node R), roleFind w s = some x → roleFind w1 s = some x) ∧
      (∀ x : Node R, roleFind w "HDRI Mapping" = some x → x.ntype = "MAPPING" → m = x) ∧
      (∀ x : Node R, roleFind w "HDRI Background" = some x → x.ntype = "BACKGROUND" → b = x) := by
  rcases hq1 : findOrCreate ({ w with use_nodes := true } : World R)
    "World Output" "ShaderNodeOutputWorld" (600, 0) with ⟨W1, o⟩
  rcases hq2 : findOrCreate W1 "HDRI Background" "ShaderNodeBackground" (400, 0) with ⟨W2, b⟩
  rcases hq3 : findOrCreate W2 "HDRI Environment" "ShaderNodeTexEnvironment" (200, 0) with ⟨W3, e⟩
  rcases hq4 : findOrCreate W3 "HDRI Mapping" "ShaderNodeMapping" (0, 0) with ⟨W4, m⟩
  rcases hq5 : findOrCreate W4 "HDRI TexCoord" "ShaderNodeTexCoord" (-200, 0) with ⟨W5, t⟩
  obtain ⟨l1, u1, x1, i1, s1, d1, m1, nm1, ty1, f1⟩ := fc_basic hq1
  obtain ⟨l2, u2, x2, i2, s2, d2, m2, nm2, ty2, f2⟩ := fc_basic hq2
  obtain ⟨l3, u3, x3, i3, s3, d3, m3, nm3, ty3, f3⟩ := fc_basic hq3
  obtain ⟨l4, u4, x4, i4, s4, d4, m4, nm4, ty4, f4⟩ := fc_basic hq4
  obtain ⟨l5, u5, x5, i5, s5, d5, m5, nm5, ty5, f5⟩ := fc_basic hq5
  have hEN : ensureNodes ({ w with use_nodes := true } : World R) = (W5, o, b, e, m, t) := by
    unfold ensureNodes
    simp only [hq1, hq2, hq3, hq4, hq5]
  have hEW : ensureWorld w =
      ({ W5 with links := ensureLinks W5.links o b e m t },
       ⟨o.id, b.id, e.id, m.id, t.id⟩) := by
    unfold ensureWorld
    rw [hEN]
  refine ⟨{ W5 with links := ensureLinks W5.links o b e m t }, o, b, e, m, t, hEW,
    ?_, ?_, ?_, ?_, ?_, ?_, ?_, ?_, ?_, nm1, ty1, nm2, ty2, nm3, ty3, nm4, ty4, nm5, ty5,
    ?_, ?_, ?_⟩
  · exact u5.trans (u4.trans (u3.trans (u2.trans u1)))
  · intro hids
    exact i5 (i4 (i3 (i2 (i1 hids))))
  · intro nd hnd
    exact s5 _ (s4 _ (s3 _ (s2 _ (s1 _ hnd))))
  · intro nd hnd
    rcases d5 nd hnd with h5 | h5
    · rcases d4 nd h5 with h4 | h4
      · rcases d3 nd h4 with h3 | h3
        · rcases d2 nd h3 with h2 | h2
          · rcases d1 nd h2 with h1 | h1
            · exact Or.inl h1
            · exact Or.inr h1
          · exact Or.inr (le_trans x1 h2)
        · exact Or.inr (le_trans x1 (le_trans x2 h3))
      · exact Or.inr (le_trans x1 (le_trans x2 (le_trans x3 h4)))
    · exact Or.inr (le_trans x1 (le_trans x2 (le_trans x3 (le_trans x4 h5))))
  · exact s5 _ (s4 _ (s3 _ (s2 _ m1)))
  · exact s5 _ (s4 _ (s3 _ m2))
  · exact s5 _ (s4 _ m3)
  · exact s5 _ m4
  · exact m5
  · intro s x hx
    exact f5 s x (f4 s x (f3 s x (f2 s x (f1 s x hx))))
  · intro x hx htyx
    have hx3 : roleFind W3 "HDRI Mapping" = some x := f3 _ x (f2 _ x (f1 _ x hx))
    have htyx' : x.ntype = nodeTypeOf "ShaderNodeMapping" :=
      htyx.trans (by decide)
    have hfound := fc_found (w := W3) (q := (0, 0)) hx3 htyx'
    exact congrArg Prod.snd (hq4.symm.trans hfound)
  · intro x hx htyx
    have hx1 : roleFind W1 "HDRI Background" = some x := f1 _ x hx
    have htyx' : x.ntype = nodeTypeOf "ShaderNodeBackground" :=
      htyx.trans (by decide)
    have hfound := fc_found (w := W1) (q := (400, 0)) hx1 htyx'
    exact congrArg Prod.snd (hq2.symm.trans hfound)

/-- Node phase under `phaseOk`: every role reachable by name and carried
by exactly one node, everything else untouched. -/
theorem ensureNodes_tidy (w : World R) (hOk : phaseOk w) :
    ∃ (W5 : World R) (o b e m t : Node R), ensureNodes w = (W5, o, b, e, m, t) ∧
      phaseOk W5 ∧
      W5.links = w.links ∧ W5.use_nodes = w.use_nodes ∧
      (∀ nd ∈ W5.nodes, nd ∈ w.nodes ∨ w.nextId ≤ nd.id) ∧
      roleFind W5 "World Output" = some o ∧
      roleFind W5 "HDRI Background" = some b ∧
      roleFind W5 "HDRI Environment" = some e ∧
      roleFind W5 "HDRI Mapping" = some m ∧
      roleFind W5 "HDRI TexCoord" = some t ∧
      o.ntype = "OUTPUT_WORLD" ∧ b.ntype = "BACKGROUND" ∧
      e.ntype = "TEX_ENVIRONMENT" ∧ m.ntype = "MAPPING" ∧ t.ntype = "TEX_COORD" ∧
      countNamed W5 "World Output" = 1 ∧ countNamed W5 "HDRI Background" = 1 ∧
      countNamed W5 "HDRI Environment" = 1 ∧ countNamed W5 "HDRI Mapping" = 1 ∧
      countNamed W5 "HDRI TexCoord" = 1 := by
  rcases hq1 : findOrCreate w "World Output" "ShaderNodeOutputWorld" (600, 0) with ⟨W1, o⟩
  rcases hq2 : findOrCreate W1 "HDRI Background" "ShaderNodeBackground" (400, 0) with ⟨W2, b⟩
  rcases hq3 : findOrCreate W2 "HDRI Environment" "ShaderNodeTexEnvironment" (200, 0) with ⟨W3, e⟩
  rcases hq4 : findOrCreate W3 "HDRI Mapping" "ShaderNodeMapping" (0, 0) with ⟨W4, m⟩
  rcases hq5 : findOrCreate W4 "HDRI TexCoord" "ShaderNodeTexCoord" (-200, 0) with ⟨W5, t⟩
  obtain ⟨l1, u1, x1, i1, s1, d1, m1, nm1, ty1, f1⟩ := fc_basic hq1
  obtain ⟨l2, u2, x2, i2, s2, d2, m2, nm2, ty2, f2⟩ := fc_basic hq2
  obtain ⟨l3, u3, x3, i3, s3, d3, m3, nm3, ty3, f3⟩ := fc_basic hq3
  obtain ⟨l4, u4, x4, i4, s4, d4, m4, nm4, ty4, f4⟩ := fc_basic hq4
  obtain ⟨l5, u5, x5, i5, s5, d5, m5, nm5, ty5, f5⟩ := fc_basic hq5
  obtain ⟨k1, rf1, c1, ro1, co1⟩ := fc_step hq1 (by decide) (by decide) hOk
  obtain ⟨k2, rf2, c2, ro2, co2⟩ := fc_step hq2 (by decide) (by decide) k1
  obtain ⟨k3, rf3, c3, ro3, co3⟩ := fc_step hq3 (by decide) (by decide) k2
  obtain ⟨k4, rf4, c4, ro4, co4⟩ := fc_step hq4 (by decide) (by decide) k3
  obtain ⟨k5, rf5, c5, ro5, co5⟩ := fc_step hq5 (by decide) (by decide) k4
  have hEN : ensureNodes w = (W5, o, b, e, m, t) := by
    unfold ensureNodes
    simp only [hq1, hq2, hq3, hq4, hq5]
  refine ⟨W5, o, b, e, m, t, hEN, k5,
    l5.trans (l4.trans (l3.trans (l2.trans l1))),
    u5.trans (u4.trans (u3.trans (u2.trans u1))), ?_,
    f5 _ o (f4 _ o (f3 _ o (f2 _ o rf1))),
    f5 _ b (f4 _ b (f3 _ b rf2)),
    f5 _ e (f4 _ e rf3),
    f5 _ m rf4,
    rf5,
    ty1.trans (by decide), ty2.trans (by decide), ty3.trans (by decide),
    ty4.trans (by decide), ty5.trans (by decide),
    ?_, ?_, ?_, ?_, c5⟩
  · intro nd hnd
    rcases d5 nd hnd with h5 | h5
    · rcases d4 nd h5 with h4 | h4
      · rcases d3 nd h4 with h3 | h3
        · rcases d2 nd h3 with h2 | h2
          · rcases d1 nd h2 with hh | hh
            · exact Or.inl hh
            · exact Or.inr hh
          · exact Or.inr (le_trans x1 h2)
        · exact Or.inr (le_trans x1 (le_trans x2 h3))
      · exact Or.inr (le_trans x1 (le_trans x2 (le_trans x3 h4)))
    · exact Or.inr (le_trans x1 (le_trans x2 (le_trans x3 (le_trans x4 h5))))
  · rw [co5 _ (by decide), co4 _ (by decide), co3 _ (by decide), co2 _ (by decide)]
    exact c1
  · rw [co5 _ (by decide), co4 _ (by decide), co3 _ (by decide)]
    exact c2
  · rw [co5 _ (by decide), co4 _ (by decide)]
    exact c3
  · rw [co5 _ (by decide)]
    exact c4

/-! ### Link counting under name and id uniqueness -/

theorem sockMatches_iff {w : World R} {sr : SocketRef} {rname sname : String}
    {a : Node R} (hpw : w.nodes.Pairwise (fun x y => x.id ≠ y.id))
    (ha : roleFind w rname = some a) (hca : countNamed w rname = 1) :
    sockMatches w sr rname sname = true ↔ sr = ⟨a.id, sname⟩ := by
  constructor
  · intro h
    unfold sockMatches at h
    rw [Bool.and_eq_true] at h
    obtain ⟨h1, h2⟩ := h
    have hsock : sr.sock = sname := by simpa using h2
    cases hn : nodeById w sr.node with
    | none =>
      rw [hn] at h1
      simp at h1
    | some n =>
      rw [hn] at h1
      have hnname : n.name = rname := by simpa using h1
      have hmemn : n ∈ w.nodes := List.mem_of_find?_eq_some hn
      have hidn : n.id = sr.node := by simpa using List.find?_some hn
      have hna : n = a := name_unique hca hmemn (roleFind_mem ha) hnname (roleFind_name ha)
      cases sr with
      | mk srn srs =>
        simp only at hsock hidn
        rw [← hna, hidn, hsock]
  · rintro rfl
    unfold sockMatches
    rw [Bool.and_eq_true]
    have hnb : nodeById w a.id = some a := find?_id_of_mem hpw (roleFind_mem ha)
    constructor
    · rw [show nodeById w (SocketRef.mk a.id sname).node = some a from hnb]
      simp [roleFind_name ha]
    · simp

theorem linkMatches_eq_beq {w : World R} {p : RolePair} {a b : Node R}
    (hpw : w.nodes.Pairwise (fun x y => x.id ≠ y.id))
    (ha : roleFind w p.fromRole = some a) (hca : countNamed w p.fromRole = 1)
    (hb : roleFind w p.toRole = some b) (hcb : countNamed w p.toRole = 1)
    (l : Link) :
    linkMatches w p l = (l == (⟨⟨a.id, p.fromSock⟩, ⟨b.id, p.toSock⟩⟩ : Link)) := by
  have hiff : linkMatches w p l = true ↔
      l = ⟨⟨a.id, p.fromSock⟩, ⟨b.id, p.toSock⟩⟩ := by
    unfold linkMatches
    rw [Bool.and_eq_true, sockMatches_iff hpw ha hca, sockMatches_iff hpw hb hcb]
    constructor
    · rintro ⟨h1, h2⟩
      cases l with
      | mk lf lt =>
        simp only at h1 h2
        rw [h1, h2]
    · rintro rfl
      exact ⟨rfl, rfl⟩
  cases hq : (l == (⟨⟨a.id, p.fromSock⟩, ⟨b.id, p.toSock⟩⟩ : Link)) with
  | false =>
    have hne : l ≠ ⟨⟨a.id, p.fromSock⟩, ⟨b.id, p.toSock⟩⟩ := by simpa using hq
    cases hlm : linkMatches w p l with
    | false => rfl
    | true => exact absurd (hiff.1 hlm) hne
  | true =>
    rw [hiff.2 (by simpa using hq)]

theorem link_once_count_self {ls : List Link} {f t : SocketRef}
    (h : (ls.filter (fun l => l == (⟨f, t⟩ : Link))).length ≤ 1) :
    ((link_once ls (some f) (some t)).filter
      (fun l => l == (⟨f, t⟩ : Link))).length = 1 := by
  by_cases hm : (⟨f, t⟩ : Link) ∈ ls
  · rw [link_once_of_mem hm]
    have h1 : 1 ≤ (ls.filter (fun l => l == (⟨f, t⟩ : Link))).length :=
      List.length_pos_of_mem (List.mem_filter.2 ⟨hm, by simp⟩)
    omega
  · rw [link_once_of_not_mem hm, List.filter_append]
    have h0 : ls.filter (fun l => l == (⟨f, t⟩ : Link)) = [] := by
      rw [List.filter_eq_nil_iff]
      intro x hx hbeq
      rw [show x = (⟨f, t⟩ : Link) from by simpa using hbeq] at hx
      exact hm hx
    rw [h0]
    simp

theorem link_once_count_ne {ls : List Link} {fs ts : Option SocketRef} {L : Link}
    (h : ∀ f t, fs = some f → ts = some t → (⟨f, t⟩ : Link) ≠ L) :
    ((link_once ls fs ts).filter (fun l => l == L)).length =
      (ls.filter (fun l => l == L)).length := by
  obtain ⟨ad, he, hc⟩ := link_once_frame ls fs ts
  rw [he, List.filter_append, List.length_append]
  rcases hc with rfl | ⟨f, t, rfl, rfl, rfl⟩
  · simp
  · have hne : ¬ ((⟨f, t⟩ : Link) == L) = true := by
      simp only [beq_iff_eq]
      exact h f t rfl rfl
    simp [hne]

theorem mem_of_count_one {ls : List Link} {L : Link}
    (h : (ls.filter (fun l => l == L)).length = 1) : L ∈ ls := by
  obtain ⟨x, hx⟩ := List.length_eq_one.1 h
  have hmem : x ∈ ls.filter (fun l => l == L) := by
    rw [hx]
    exact List.mem_singleton_self x
  obtain ⟨hm, hbeq⟩ := List.mem_filter.1 hmem
  rw [← show x = L from by simpa using hbeq]
  exact hm

theorem old_count_le {w : World R} {p : RolePair} {a b : Node R}
    (hids : idsOk w) (hlinks : linksOk w) (hnames : namesOk w) (hpairs : pairsOk w)
    (hp : p ∈ requiredPairs)
    (han : a.name = p.fromRole) (hbn : b.name = p.toRole)
    (hA : a ∈ w.nodes ∨ w.nextId ≤ a.id) (hB : b ∈ w.nodes ∨ w.nextId ≤ b.id) :
    (w.links.filter
      (fun l => l == (⟨⟨a.id, p.fromSock⟩, ⟨b.id, p.toSock⟩⟩ : Link))).length ≤ 1 := by
  by_cases hAm : a ∈ w.nodes
  · by_cases hBm : b ∈ w.nodes
    · have hroleN : p.fromRole ∈ roleNames ∧ p.toRole ∈ roleNames := by
        fin_cases hp <;> exact ⟨by decide, by decide⟩
      have hca : countNamed w p.fromRole = 1 :=
        Nat.le_antisymm (hnames _ hroleN.1)
          (List.length_pos_of_mem (List.mem_filter.2 ⟨hAm, by simp [han]⟩))
      have hcb : countNamed w p.toRole = 1 :=
        Nat.le_antisymm (hnames _ hroleN.2)
          (List.length_pos_of_mem (List.mem_filter.2 ⟨hBm, by simp [hbn]⟩))
      obtain ⟨x, hx⟩ := roleFind_some_of_count (le_of_eq hca.symm)
      obtain ⟨y, hy⟩ := roleFind_some_of_count (le_of_eq hcb.symm)
      have hxa : x = a := name_unique hca (roleFind_mem hx) hAm (roleFind_name hx) han
      have hyb : y = b := name_unique hcb (roleFind_mem hy) hBm (roleFind_name hy) hbn
      subst hxa
      subst hyb
      have himp : ∀ l : Link,
          (l == (⟨⟨x.id, p.fromSock⟩, ⟨y.id, p.toSock⟩⟩ : Link)) = true →
          linkMatches w p l = true := by
        intro l hl
        rw [linkMatches_eq_beq hids.2 hx hca hy hcb l]
        exact hl
      exact le_trans (List.monotone_filter_right w.links himp).length_le (hpairs p hp)
    · have hBf : w.nextId ≤ b.id := hB.resolve_left hBm
      have h0 : w.links.filter
          (fun l => l == (⟨⟨a.id, p.fromSock⟩, ⟨b.id, p.toSock⟩⟩ : Link)) = [] := by
        rw [List.filter_eq_nil_iff]
        intro l hl hbeq
        have hleq : l = ⟨⟨a.id, p.fromSock⟩, ⟨b.id, p.toSock⟩⟩ := by simpa using hbeq
        obtain ⟨n, hn, hnid⟩ := (hlinks l hl).2
        rw [hleq] at hnid
        simp only at hnid
        have hlt : n.id < w.nextId := hids.1 n hn
        omega
      rw [h0]
      simp
  · have hAf : w.nextId ≤ a.id := hA.resolve_left hAm
    have h0 : w.links.filter
        (fun l => l == (⟨⟨a.id, p.fromSock⟩, ⟨b.id, p.toSock⟩⟩ : Link)) = [] := by
      rw [List.filter_eq_nil_iff]
      intro l hl hbeq
      have hleq : l = ⟨⟨a.id, p.fromSock⟩, ⟨b.id, p.toSock⟩⟩ := by simpa using hbeq
      obtain ⟨n, hn, hnid⟩ := (hlinks l hl).1
      rw [hleq] at hnid
      simp only at hnid
      have hlt : n.id < w.nextId := hids.1 n hn
      omega
    rw [h0]
    simp

theorem setUse_eq {w : World R} (h : w.use_nodes = true) :
    ({ w with use_nodes := true } : World R) = w := by
  cases w
  dsimp only at h ⊢
  rw [← h]

theorem setLinks_self (w : World R) :
    ({ w with links := w.links } : World R) = w := by
  cases w
  rfl

theorem link_once_ne_helper {a1 a2 : SocketRef} {L : Link}
    (hne : a1.sock ≠ L.from_socket.sock) :
    ∀ f' t', (some a1 = some f') → (some a2 = some t') →
      (⟨f', t'⟩ : Link) ≠ L := by
  rintro f' t' hf ht' heq
  rw [← Option.some.inj hf] at heq
  exact hne (congrArg (fun l => l.from_socket.sock) heq)

/-- A full synchronizer run on a tidy world: handles are the five role
nodes, everything established, exactly one node per role name and exactly
one link per required connection. -/
theorem ensureWorld_tidy (w : World R) (ht : tidy w) :
    ∃ (w1 : World R) (o b e m t : Node R),
      ensureWorld w = (w1, ⟨o.id, b.id, e.id, m.id, t.id⟩) ∧
      established w1 ∧
      idsOk w1 ∧
      roleFind w1 "World Output" = some o ∧ roleFind w1 "HDRI Background" = some b ∧
      roleFind w1 "HDRI Environment" = some e ∧ roleFind w1 "HDRI Mapping" = some m ∧
      roleFind w1 "HDRI TexCoord" = some t ∧
      o.ntype = "OUTPUT_WORLD" ∧ b.ntype = "BACKGROUND" ∧ e.ntype = "TEX_ENVIRONMENT" ∧
      m.ntype = "MAPPING" ∧ t.ntype = "TEX_COORD" ∧
      (∀ r ∈ roleNames, countNamed w1 r = 1) ∧
      (∀ p ∈ requiredPairs, countPair w1 p = 1) := by
  obtain ⟨hids, hlinks, hroles, hnames, hpairs⟩ := ht
  have hOk : phaseOk ({ w with use_nodes := true } : World R) := ⟨hids, hroles, hnames⟩
  obtain ⟨W5, o, b, e, m, t, hEN, hOk5, hl5, hu5, hdec5, fo, fb, fe, fm, ft,
    yo, yb, ye, ym, yt, co, cb, ce, cm, ctt⟩ := ensureNodes_tidy _ hOk
  have g1 : outputGet t "Generated" = some ⟨t.id, "Generated"⟩ := outputGet_eq yt (by decide)
  have g2 : inputGet m "Vector" = some ⟨m.id, "Vector"⟩ := inputGet_eq ym (by decide)
  have g3 : outputGet m "Vector" = some ⟨m.id, "Vector"⟩ := outputGet_eq ym (by decide)
  have g4 : inputGet e "Vector" = some ⟨e.id, "Vector"⟩ := inputGet_eq ye (by decide)
  have g5 : outputGet e "Color" = some ⟨e.id, "Color"⟩ := outputGet_eq ye (by decide)
  have g6 : inputGet b "Color" = some ⟨b.id, "Color"⟩ := inputGet_eq yb (by decide)
  have g7 : outputGet b "Background" = some ⟨b.id, "Background"⟩ := outputGet_eq yb (by decide)
  have g8 : inputGet o "Surface" = some ⟨o.id, "Surface"⟩ := inputGet_eq yo (by decide)
  have hEW : ensureWorld w = ({ W5 with links := ensureLinks W5.links o b e m t },
      ⟨o.id, b.id, e.id, m.id, t.id⟩) := by
    unfold ensureWorld
    rw [hEN]
  have hLS : ensureLinks W5.links o b e m t =
      link_once (link_once (link_once (link_once W5.links
        (some ⟨t.id, "Generated"⟩) (some ⟨m.id, "Vector"⟩))
        (some ⟨m.id, "Vector"⟩) (some ⟨e.id, "Vector"⟩))
        (some ⟨e.id, "Color"⟩) (some ⟨b.id, "Color"⟩))
        (some ⟨b.id, "Background"⟩) (some ⟨o.id, "Surface"⟩) := by
    simp only [ensureLinks, g1, g2, g3, g4, g5, g6, g7, g8]
  have hW5w : W5.links = w.links := hl5
  -- fresh-or-old facts for the five role nodes
  have haO : o ∈ w.nodes ∨ w.nextId ≤ o.id := hdec5 o (roleFind_mem fo)
  have haB : b ∈ w.nodes ∨ w.nextId ≤ b.id := hdec5 b (roleFind_mem fb)
  have haE : e ∈ w.nodes ∨ w.nextId ≤ e.id := hdec5 e (roleFind_mem fe)
  have haM : m ∈ w.nodes ∨ w.nextId ≤ m.id := hdec5 m (roleFind_mem fm)
  have haT : t ∈ w.nodes ∨ w.nextId ≤ t.id := hdec5 t (roleFind_mem ft)
  -- bounds on pre-existing canonical links
  have bound1 : (w.links.filter
      (fun l => l == (⟨⟨t.id, "Generated"⟩, ⟨m.id, "Vector"⟩⟩ : Link))).length ≤ 1 :=
    old_count_le (p := ⟨"HDRI TexCoord", "Generated", "HDRI Mapping", "Vector"⟩)
      hids hlinks hnames hpairs (by decide) (roleFind_name ft) (roleFind_name fm) haT haM
  have bound2 : (w.links.filter
      (fun l => l == (⟨⟨m.id, "Vector"⟩, ⟨e.id, "Vector"⟩⟩ : Link))).length ≤ 1 :=
    old_count_le (p := ⟨"HDRI Mapping", "Vector", "HDRI Environment", "Vector"⟩)
      hids hlinks hnames hpairs (by decide) (roleFind_name fm) (roleFind_name fe) haM haE
  have bound3 : (w.links.filter
      (fun l => l == (⟨⟨e.id, "Color"⟩, ⟨b.id, "Color"⟩⟩ : Link))).length ≤ 1 :=
    old_count_le (p := ⟨"HDRI Environment", "Color", "HDRI Background", "Color"⟩)
      hids hlinks hnames hpairs (by decide) (roleFind_name fe) (roleFind_name fb) haE haB
  have bound4 : (w.links.filter
      (fun l => l == (⟨⟨b.id, "Background"⟩, ⟨o.id, "Surface"⟩⟩ : Link))).length ≤ 1 :=
    old_count_le (p := ⟨"HDRI Background", "Background", "World Output", "Surface"⟩)
      hids hlinks hnames hpairs (by decide) (roleFind_name fb) (roleFind_name fo) haB haO
  -- counts of the four canonical links after the link phase
  have cnt1 : ((ensureLinks W5.links o b e m t).filter
      (fun l => l == (⟨⟨t.id, "Generated"⟩, ⟨m.id, "Vector"⟩⟩ : Link))).length = 1 := by
    rw [hLS,
      link_once_count_ne (link_once_ne_helper (by simp)),
      link_once_count_ne (link_once_ne_helper (by simp)),
      link_once_count_ne (link_once_ne_helper (by simp))]
    apply link_once_count_self
    rw [hW5w]
    exact bound1
  have cnt2 : ((ensureLinks W5.links o b e m t).filter
      (fun l => l == (⟨⟨m.id, "Vector"⟩, ⟨e.id, "Vector"⟩⟩ : Link))).length = 1 := by
    rw [hLS,
      link_once_count_ne (link_once_ne_helper (by simp)),
      link_once_count_ne (link_once_ne_helper (by simp))]
    apply link_once_count_self
    rw [link_once_count_ne (link_once_ne_helper (by simp)), hW5w]
    exact bound2
  have cnt3 : ((ensureLinks W5.links o b e m t).filter
      (fun l => l == (⟨⟨e.id, "Color"⟩, ⟨b.id, "Color"⟩⟩ : Link))).length = 1 := by
    rw [hLS, link_once_count_ne (link_once_ne_helper (by simp))]
    apply link_once_count_self
    rw [link_once_count_ne (link_once_ne_helper (by simp)),
      link_once_count_ne (link_once_ne_helper (by simp)), hW5w]
    exact bound3
  have cnt4 : ((ensureLinks W5.links o b e m t).filter
      (fun l => l == (⟨⟨b.id, "Background"⟩, ⟨o.id, "Surface"⟩⟩ : Link))).length = 1 := by
    rw [hLS]
    apply link_once_count_self
    rw [link_once_count_ne (link_once_ne_helper (by simp)),
      link_once_count_ne (link_once_ne_helper (by simp)),
      link_once_count_ne (link_once_ne_helper (by simp)), hW5w]
    exact bound4
  have hpw1 : ({ W5 with links := ensureLinks W5.links o b e m t } : World R).nodes.Pairwise
      (fun x y => x.id ≠ y.id) := hOk5.1.2
  -- countPair in the final world equals the canonical count
  have hcp : ∀ (p : RolePair) (a c : Node R),
      roleFind W5 p.fromRole = some a → countNamed W5 p.fromRole = 1 →
      roleFind W5 p.toRole = some c → countNamed W5 p.toRole = 1 →
      countPair ({ W5 with links := ensureLinks W5.links o b e m t } : World R) p =
        ((ensureLinks W5.links o b e m t).filter
          (fun l => l == (⟨⟨a.id, p.fromSock⟩, ⟨c.id, p.toSock⟩⟩ : Link))).length := by
    intro p a cc hfa hca hfc hcc
    unfold countPair
    refine congrArg List.length (List.filter_congr ?_)
    intro l hl
    exact linkMatches_eq_beq hpw1 hfa hca hfc hcc l
  refine ⟨{ W5 with links := ensureLinks W5.links o b e m t }, o, b, e, m, t, hEW,
    ⟨hu5, ?_, ?_⟩, hOk5.1, fo, fb, fe, fm, ft, yo, yb, ye, ym, yt, ?_, ?_⟩
  · intro r hr
    fin_cases hr
    · exact ⟨o, fo, yo⟩
    · exact ⟨b, fb, yb⟩
    · exact ⟨e, fe, ye⟩
    · exact ⟨m, fm, ym⟩
    · exact ⟨t, ft, yt⟩
  · intro p hp
    fin_cases hp
    · exact ⟨t, m, ft, fm, mem_of_count_one cnt1⟩
    · exact ⟨m, e, fm, fe, mem_of_count_one cnt2⟩
    · exact ⟨e, b, fe, fb, mem_of_count_one cnt3⟩
    · exact ⟨b, o, fb, fo, mem_of_count_one cnt4⟩
  · intro r hr
    fin_cases hr
    · exact co
    · exact cb
    · exact ce
    · exact cm
    · exact ctt
  · intro p hp
    fin_cases hp
    · rw [hcp _ t m ft ctt fm cm]
      exact cnt1
    · rw [hcp _ m e fm cm fe ce]
      exact cnt2
    · rw [hcp _ e b fe ce fb cb]
      exact cnt3
    · rw [hcp _ b o fb cb fo co]
      exact cnt4

/-- On an established world the synchronizer finds everything and changes
nothing: it returns the world unchanged with the role nodes' ids. -/
theorem ensure_established_id (w : World R) {no nb ne nm nt : Node R}
    (hu : w.use_nodes = true)
    (ho : roleFind w "World Output" = some no) (hto : no.ntype = "OUTPUT_WORLD")
    (hb : roleFind w "HDRI Background" = some nb) (htb : nb.ntype = "BACKGROUND")
    (he : roleFind w "HDRI Environment" = some ne) (hte : ne.ntype = "TEX_ENVIRONMENT")
    (hm : roleFind w "HDRI Mapping" = some nm) (htm : nm.ntype = "MAPPING")
    (ht : roleFind w "HDRI TexCoord" = some nt) (htt : nt.ntype = "TEX_COORD")
    (hL1 : (⟨⟨nt.id, "Generated"⟩, ⟨nm.id, "Vector"⟩⟩ : Link) ∈ w.links)
    (hL2 : (⟨⟨nm.id, "Vector"⟩, ⟨ne.id, "Vector"⟩⟩ : Link) ∈ w.links)
    (hL3 : (⟨⟨ne.id, "Color"⟩, ⟨nb.id, "Color"⟩⟩ : Link) ∈ w.links)
    (hL4 : (⟨⟨nb.id, "Background"⟩, ⟨no.id, "Surface"⟩⟩ : Link) ∈ w.links) :
    ensureWorld w = (w, ⟨no.id, nb.id, ne.id, nm.id, nt.id⟩) := by
  have hsu : ({ w with use_nodes := true } : World R) = w := setUse_eq hu
  have t1 : no.ntype = nodeTypeOf "ShaderNodeOutputWorld" :=
    hto.trans (by decide : ("OUTPUT_WORLD" : String) = nodeTypeOf "ShaderNodeOutputWorld")
  have t2 : nb.ntype = nodeTypeOf "ShaderNodeBackground" :=
    htb.trans (by decide : ("BACKGROUND" : String) = nodeTypeOf "ShaderNodeBackground")
  have t3 : ne.ntype = nodeTypeOf "ShaderNodeTexEnvironment" :=
    hte.trans (by decide : ("TEX_ENVIRONMENT" : String) = nodeTypeOf "ShaderNodeTexEnvironment")
  have t4 : nm.ntype = nodeTypeOf "ShaderNodeMapping" :=
    htm.trans (by decide : ("MAPPING" : String) = nodeTypeOf "ShaderNodeMapping")
  have t5 : nt.ntype = nodeTypeOf "ShaderNodeTexCoord" :=
    htt.trans (by decide : ("TEX_COORD" : String) = nodeTypeOf "ShaderNodeTexCoord")
  have hEN : ensureNodes ({ w with use_nodes := true } : World R) =
      (w, no, nb, ne, nm, nt) := by
    rw [hsu]
    unfold ensureNodes
    simp only [fc_found ho t1, fc_found hb t2, fc_found he t3, fc_found hm t4,
      fc_found ht t5]
  have g1 : outputGet nt "Generated" = some ⟨nt.id, "Generated"⟩ :=
    outputGet_eq htt (by decide)
  have g2 : inputGet nm "Vector" = some ⟨nm.id, "Vector"⟩ := inputGet_eq htm (by decide)
  have g3 : outputGet nm "Vector" = some ⟨nm.id, "Vector"⟩ := outputGet_eq htm (by decide)
  have g4 : inputGet ne "Vector" = some ⟨ne.id, "Vector"⟩ := inputGet_eq hte (by decide)
  have g5 : outputGet ne "Color" = some ⟨ne.id, "Color"⟩ := outputGet_eq hte (by decide)
  have g6 : inputGet nb "Color" = some ⟨nb.id, "Color"⟩ := inputGet_eq htb (by decide)
  have g7 : outputGet nb "Background" = some ⟨nb.id, "Background"⟩ :=
    outputGet_eq htb (by decide)
  have g8 : inputGet no "Surface" = some ⟨no.id, "Surface"⟩ := inputGet_eq hto (by decide)
  have hLS : ensureLinks w.links no nb ne nm nt = w.links := by
    simp only [ensureLinks, g1, g2, g3, g4, g5, g6, g7, g8,
      link_once_of_mem hL1, link_once_of_mem hL2, link_once_of_mem hL3,
      link_once_of_mem hL4]
  unfold ensureWorld
  rw [hEN]
  dsimp only
  rw [hLS]

/-! ### Data-level computation helpers -/

theorem ensure_data {d : Data R} {g c : Option Ctx} {si : Nat} {sc : Scene R}
    (hres : _safe_scene d g c = some si) (hsc : d.scenes.get? si = some sc) :
    ensure_world_node_setup d g c =
      ({ d with scenes := d.scenes.set si ({ sc with world := some (ensureWorld (sc.world.getD emptyWorld)).1 }) },
       some (si, (ensureWorld (sc.world.getD emptyWorld)).2)) := by
  unfold ensure_world_node_setup
  simp only [hres, hsc]

theorem updProps_eq {d : Data R} {si : Nat} {sc : Scene R}
    (hsc : d.scenes.get? si = some sc) (f : Props R → Props R) :
    updProps d si f =
      { d with scenes := d.scenes.set si { sc with shdri_props := f sc.shdri_props } } := by
  unfold updProps
  rw [hsc]

theorem updNodeInScene_eq {d : Data R} {si : Nat} {sc : Scene R} {w : World R}
    (hsc : d.scenes.get? si = some sc) (hw : sc.world = some w)
    (nid : Nat) (f : Node R → Node R) :
    updNodeInScene d si nid f =
      { d with scenes := d.scenes.set si { sc with world := some (updNode w nid f) } } := by
  unfold updNodeInScene
  simp only [hsc, hw]

theorem find?_id_updNode_pres {l : List (Node R)} {nid tid : Nat}
    {f : Node R → Node R} (hf : ∀ n, (f n).id = n.id) :
    (l.map (fun n => if n.id = nid then f n else n)).find? (fun y => y.id == tid) =
      (l.find? (fun y => y.id == tid)).map (fun n => if n.id = nid then f n else n) := by
  induction l with
  | nil => rfl
  | cons a as ih =>
    have hga : ((if a.id = nid then f a else a) : Node R).id = a.id := by
      split
      · exact hf a
      · rfl
    by_cases h : (a.id == tid) = true
    · rw [List.map_cons,
        show List.find? (fun y => y.id == tid)
            ((if a.id = nid then f a else a) :: as.map (fun n => if n.id = nid then f n else n)) =
          some (if a.id = nid then f a else a)
          from List.find?_cons_of_pos _ (by simpa [hga] using h),
        show List.find? (fun y => y.id == tid) (a :: as) = some a
          from List.find?_cons_of_pos _ h]
      rfl
    · rw [List.map_cons,
        show List.find? (fun y => y.id == tid)
            ((if a.id = nid then f a else a) :: as.map (fun n => if n.id = nid then f n else n)) =
          List.find? (fun y => y.id == tid) (as.map (fun n => if n.id = nid then f n else n))
          from List.find?_cons_of_neg _ (by simpa [hga] using h),
        show List.find? (fun y => y.id == tid) (a :: as) =
          List.find? (fun y => y.id == tid) as from List.find?_cons_of_neg _ h]
      exact ih

theorem nodeById_updNode {w : World R} {x : Node R}
    (hpw : w.nodes.Pairwise (fun a b => a.id ≠ b.id)) (hx : x ∈ w.nodes)
    {f : Node R → Node R} (hf : ∀ n, (f n).id = n.id) :
    nodeById (updNode w x.id f) x.id = some (f x) := by
  unfold nodeById updNode
  rw [show ({ w with nodes := w.nodes.map (fun n => if n.id = x.id then f n else n) } : World R).nodes
      = w.nodes.map (fun n => if n.id = x.id then f n else n) from rfl]
  rw [find?_id_updNode_pres hf]
  rw [show w.nodes.find? (fun y => y.id == x.id) = some x from find?_id_of_mem hpw hx]
  simp

theorem updProps_obs {d : Data R} {si : Nat} {sc : Scene R}
    (hsc : d.scenes.get? si = some sc) (f : Props R → Props R) :
    (updProps d si f).scenes.get? si =
      some { sc with shdri_props := f sc.shdri_props } := by
  rw [updProps_eq hsc]
  dsimp only
  exact get?_set_self hsc _

theorem updNodeInScene_obs {d : Data R} {si : Nat} {sc : Scene R} {w : World R}
    (hsc : d.scenes.get? si = some sc) (hw : sc.world = some w)
    (nid : Nat) (f : Node R → Node R) :
    sceneWorld (updNodeInScene d si nid f) si = some (updNode w nid f) ∧
    sceneProps (updNodeInScene d si nid f) si = some sc.shdri_props := by
  rw [updNodeInScene_eq hsc hw]
  have hg := get?_set_self hsc ({ sc with world := some (updNode w nid f) })
  constructor
  · unfold sceneWorld
    dsimp only
    rw [hg]
    rfl
  · unfold sceneProps
    dsimp only
    rw [hg]
    rfl

theorem ensure_obs {d : Data R} {g c : Option Ctx} {si : Nat} {sc : Scene R}
    (hres : _safe_scene d g c = some si) (hsc : d.scenes.get? si = some sc) :
    ∃ d2, ensure_world_node_setup d g c =
        (d2, some (si, (ensureWorld (sc.world.getD emptyWorld)).2)) ∧
      d2.scenes.get? si =
        some { sc with world := some (ensureWorld (sc.world.getD emptyWorld)).1 } ∧
      d2.scenes.isEmpty = d.scenes.isEmpty ∧
      d2.images = d.images := by
  refine ⟨_, ensure_data hres hsc, ?_, ?_, ?_⟩
  · dsimp only
    exact get?_set_self hsc _
  · dsimp only
    exact isEmpty_set _ _ _
  · rfl

theorem updProps_isEmpty (d : Data R) (si : Nat) (f : Props R → Props R) :
    (updProps d si f).scenes.isEmpty = d.scenes.isEmpty := by
  unfold updProps
  split
  · rfl
  · exact isEmpty_set _ _ _

theorem safe_scene_isEmpty_congr {d1 d2 : Data R}
    (h : d1.scenes.isEmpty = d2.scenes.isEmpty) (g c : Option Ctx) :
    _safe_scene d1 g c = _safe_scene d2 g c := by
  unfold _safe_scene globalFallback
  rw [h]

/-- C1 (amended): on a scene whose world graph is host-consistent and
does not abuse the reserved names (`tidy`), running the synchronizer twice
creates no duplicate nodes or links: the second run returns the same data
and handles unchanged, and the graph holds exactly one node per role name
and exactly one link per required connection. -/
theorem ensure_idempotent {R : Type} [LinearOrderedField R]
    (d : Data R) (g c : Option Ctx) (si : Nat) (sc : Scene R) (w : World R)
    (hres : _safe_scene d g c = some si)
    (hsc : d.scenes.get? si = some sc)
    (hw : sc.world = some w)
    (ht : tidy w) :
    ∃ (d1 : Data R) (h : Handles) (w1 : World R),
      ensure_world_node_setup d g c = (d1, some (si, h)) ∧
      ensure_world_node_setup d1 g c = (d1, some (si, h)) ∧
      sceneWorld d1 si = some w1 ∧
      (∀ r ∈ roleNames, countNamed w1 r = 1) ∧
      (∀ p ∈ requiredPairs, countPair w1 p = 1) := by
  obtain ⟨w1, o, b, e, m, t, hEW, hest, hids1, f1, f2, f3, f4, f5,
    y1, y2, y3, y4, y5, hcN, hcP⟩ := ensureWorld_tidy w ht
  obtain ⟨d2, hE, hsc2, hie2, him2⟩ := ensure_obs hres hsc
  simp only [hw, Option.getD_some, hEW] at hE hsc2
  have hres2 : _safe_scene d2 g c = some si :=
    (safe_scene_isEmpty_congr hie2 g c).trans hres
  have hEW2 : ensureWorld w1 = (w1, ⟨o.id, b.id, e.id, m.id, t.id⟩) := by
    obtain ⟨hu, hnodes, hlinks⟩ := hest
    obtain ⟨a1, c1, ha1, hc1, hmem1⟩ :=
      hlinks ⟨"HDRI TexCoord", "Generated", "HDRI Mapping", "Vector"⟩ (by decide)
    obtain ⟨a2, c2, ha2, hc2, hmem2⟩ :=
      hlinks ⟨"HDRI Mapping", "Vector", "HDRI Environment", "Vector"⟩ (by decide)
    obtain ⟨a3, c3, ha3, hc3, hmem3⟩ :=
      hlinks ⟨"HDRI Environment", "Color", "HDRI Background", "Color"⟩ (by decide)
    obtain ⟨a4, c4, ha4, hc4, hmem4⟩ :=
      hlinks ⟨"HDRI Background", "Background", "World Output", "Surface"⟩ (by decide)
    cases Option.some.inj (ha1.symm.trans f5)
    cases Option.some.inj (hc1.symm.trans f4)
    cases Option.some.inj (ha2.symm.trans f4)
    cases Option.some.inj (hc2.symm.trans f3)
    cases Option.some.inj (ha3.symm.trans f3)
    cases Option.some.inj (hc3.symm.trans f2)
    cases Option.some.inj (ha4.symm.trans f2)
    cases Option.some.inj (hc4.symm.trans f1)
    exact ensure_established_id w1 hu f1 y1 f2 y2 f3 y3 f4 y4 f5 y5
      hmem1 hmem2 hmem3 hmem4
  have hE2 := ensure_data hres2 hsc2
  simp only [show ({ sc with world := some w1 } : Scene R).world = some w1 from rfl,
    Option.getD_some, hEW2] at hE2
  rw [set_self_of_get? hsc2] at hE2
  rw [show (⟨d2.scenes, d2.images, d2.nextImageId⟩ : Data R) = d2 from rfl] at hE2
  refine ⟨d2, ⟨o.id, b.id, e.id, m.id, t.id⟩, w1, hE, hE2, ?_, hcN, hcP⟩
  unfold sceneWorld
  rw [hsc2]
  rfl

/-- Counterexample for C1 as stated: a world whose graph carries a
wrong-typed node named "World Output" makes the synchronizer create a
fresh output node on every call, so after two calls three nodes bear that
role name. -/
theorem ensure_idempotent_cex :
    (match sceneWorld
        (ensure_world_node_setup
          (ensure_world_node_setup (R := ℚ)
            ⟨[⟨some ⟨true, [⟨0, "World Output", "BACKGROUND", (0, 0), none, (0, 0, 0), 1⟩], [], 1⟩,
              ⟨none, 0, 1⟩⟩], [], 0⟩ none (some ⟨some 0⟩)).1 none (some ⟨some 0⟩)).1 0 with
      | some wx => countNamed wx "World Output"
      | none => 0) = 3 := by
  decide

/-- Witness for C1 (amended): a scene holding an empty (tidy) world. -/
theorem ensure_idempotent_witness :
    ∃ (d1 : Data ℚ) (h : Handles) (w1 : World ℚ),
      ensure_world_node_setup (R := ℚ)
        ⟨[⟨some ⟨false, [], [], 0⟩, ⟨none, 0, 1⟩⟩], [], 0⟩ none (some ⟨some 0⟩) =
        (d1, some (0, h)) ∧
      ensure_world_node_setup d1 none (some ⟨some 0⟩) = (d1, some (0, h)) ∧
      sceneWorld d1 0 = some w1 ∧
      (∀ r ∈ roleNames, countNamed w1 r = 1) ∧
      (∀ p ∈ requiredPairs, countPair w1 p = 1) :=
  ensure_idempotent ⟨[⟨some ⟨false, [], [], 0⟩, ⟨none, 0, 1⟩⟩], [], 0⟩ none
    (some ⟨some 0⟩) 0 ⟨some ⟨false, [], [], 0⟩, ⟨none, 0, 1⟩⟩ ⟨false, [], [], 0⟩
    rfl rfl rfl
    ⟨⟨by decide, by decide⟩, by unfold linksOk; decide, by unfold rolesOk; decide,
      by unfold namesOk; decide, by unfold pairsOk; decide⟩

/-- C4: assigning `rotation_deg := v` on the resolved scene writes
`radians v` into the third component of the mapping node's rotation input
and leaves the first two components at their prior values (`m0` is the
pre-existing mapping node); the Property Store records `v`. -/
theorem rotation_update_correct {R : Type} [LinearOrderedField R] (pi : R)
    (d : Data R) (g c : Option Ctx) (si : Nat) (sc : Scene R) (w : World R)
    (m0 : Node R) (v : R)
    (hres : _safe_scene d g c = some si)
    (hsc : d.scenes.get? si = some sc)
    (hw : sc.world = some w)
    (hm0 : roleFind w "HDRI Mapping" = some m0)
    (hty : m0.ntype = "MAPPING")
    (hids : idsOk w) :
    ∃ w2, sceneWorld (assign_rotation_deg pi d g c si v) si = some w2 ∧
      nodeById w2 m0.id = some { m0 with
        rotation := (m0.rotation.1, m0.rotation.2.1, radians pi v) } ∧
      sceneProps (assign_rotation_deg pi d g c si v) si =
        some { sc.shdri_props with rotation_deg := v } := by
  have hres1 : _safe_scene (updProps d si (fun p => { p with rotation_deg := v })) g c = some si :=
    (safe_scene_isEmpty_congr (updProps_isEmpty d si _) g c).trans hres
  have hsc1 := updProps_obs hsc (fun p => { p with rotation_deg := v })
  obtain ⟨w1, o, b, e, m, t, hEW, hu1, hi1, hs1, hd1, ho1, hb1, he1, hm1, ht1,
    hon, hot, hbn, hbt, hen, het, hmn, hmt2, htn, htt, hstab, hovM, hovB⟩ :=
    ensureWorld_basic w
  have hmEq : m = m0 := hovM m0 hm0 hty
  obtain ⟨d2, hE, hsc2, hie2, him2⟩ := ensure_obs hres1 hsc1
  simp only [show ({ sc with shdri_props := { sc.shdri_props with rotation_deg := v } } : Scene R).world = sc.world from rfl,
    hw, Option.getD_some, hEW] at hE hsc2
  have hA : assign_rotation_deg pi d g c si v =
      updNodeInScene d2 si m.id
        (fun n => { n with rotation := (n.rotation.1, n.rotation.2.1, radians pi v) }) := by
    simp only [assign_rotation_deg, _update_rotation, set_hdri_rotation_deg]
    rw [hE]
  obtain ⟨hW2, hP2⟩ := updNodeInScene_obs hsc2 rfl m.id
    (fun n => { n with rotation := (n.rotation.1, n.rotation.2.1, radians pi v) })
  refine ⟨updNode w1 m.id
    (fun n => { n with rotation := (n.rotation.1, n.rotation.2.1, radians pi v) }), ?_, ?_, ?_⟩
  · rw [hA]
    exact hW2
  · rw [hmEq]
    exact nodeById_updNode (hi1 hids).2 (hmEq ▸ hm1) (fun n => rfl)
  · rw [hA]
    exact hP2

/-- Witness for C4: with `pi = 3` and `rotation_deg := 90`, the mapping
node's third rotation component becomes `radians 90 = 3/2 = pi/2`, and the
first two components keep their prior values `5` and `7`. -/
theorem rotation_update_correct_witness :
    ∃ w2, sceneWorld (assign_rotation_deg (R := ℚ) 3
        ⟨[⟨some ⟨true, [⟨0, "HDRI Mapping", "MAPPING", (0, 0), none, (5, 7, 9), 1⟩], [], 1⟩,
          ⟨none, 0, 1⟩⟩], [], 0⟩ none (some ⟨some 0⟩) 0 90) 0 = some w2 ∧
      nodeById w2 0 = some ⟨0, "HDRI Mapping", "MAPPING", (0, 0), none, (5, 7, 3 / 2), 1⟩ := by
  obtain ⟨w2, h1, h2, h3⟩ := rotation_update_correct (R := ℚ) 3
    ⟨[⟨some ⟨true, [⟨0, "HDRI Mapping", "MAPPING", (0, 0), none, (5, 7, 9), 1⟩], [], 1⟩,
      ⟨none, 0, 1⟩⟩], [], 0⟩ none (some ⟨some 0⟩) 0
    ⟨some ⟨true, [⟨0, "HDRI Mapping", "MAPPING", (0, 0), none, (5, 7, 9), 1⟩], [], 1⟩, ⟨none, 0, 1⟩⟩
    ⟨true, [⟨0, "HDRI Mapping", "MAPPING", (0, 0), none, (5, 7, 9), 1⟩], [], 1⟩
    ⟨0, "HDRI Mapping", "MAPPING", (0, 0), none, (5, 7, 9), 1⟩ 90
    rfl rfl rfl (by decide) rfl ⟨by decide, by decide⟩
  refine ⟨w2, h1, ?_⟩
  rw [h2]
  have hr : radians (3 : ℚ) 90 = 3 / 2 := by
    unfold radians
    norm_num
  rw [hr]

/-- C5: assigning the Property Store's image field first materializes the
graph, then points the environment sampler node at the assigned image when
it resolves to a 2D `'IMAGE'` resource and clears it to absent otherwise;
the setter has no error channel. -/
theorem image_update_correct {R : Type} [LinearOrderedField R]
    (d : Data R) (g c : Option Ctx) (si : Nat) (sc : Scene R) (w : World R)
    (v : Option Nat)
    (hres : _safe_scene d g c = some si)
    (hsc : d.scenes.get? si = some sc)
    (hw : sc.world = some w)
    (hids : idsOk w) :
    ∃ w2 ne, sceneWorld (assign_image d g c si v) si = some w2 ∧
      nodeById w2 ((ensureWorld w).2).env = some ne ∧
      ne.name = "HDRI Environment" ∧ ne.ntype = "TEX_ENVIRONMENT" ∧
      ne.image = (match v.bind (fun vid => d.images.find? (fun im => im.id == vid)) with
        | some img => if img.itype = "IMAGE" then some img.id else none
        | none => none) ∧
      sceneProps (assign_image d g c si v) si =
        some { sc.shdri_props with image := v } := by
  have hres1 : _safe_scene (updProps d si (fun p => { p with image := v })) g c = some si :=
    (safe_scene_isEmpty_congr (updProps_isEmpty d si _) g c).trans hres
  have hsc1 := updProps_obs hsc (fun p => { p with image := v })
  obtain ⟨w1, o, b, e, m, t, hEW, hu1, hi1, hs1, hd1, ho1, hb1, he1, hm1, ht1,
    hon, hot, hbn, hbt, hen, het, hmn, hmt2, htn, htt, hstab, hovM, hovB⟩ :=
    ensureWorld_basic w
  obtain ⟨d2, hE, hsc2, hie2, him2⟩ := ensure_obs hres1 hsc1
  simp only [show ({ sc with shdri_props := { sc.shdri_props with image := v } } : Scene R).world = sc.world from rfl,
    hw, Option.getD_some, hEW] at hE hsc2
  have hA : assign_image d g c si v =
      updNodeInScene d2 si e.id
        (fun n => { n with image :=
          (match v.bind (fun vid => d.images.find? (fun im => im.id == vid)) with
            | some img => if img.itype = "IMAGE" then some img.id else none
            | none => none) }) := by
    simp only [assign_image, _update_image, apply_hdri_image, updProps_images]
    rw [hE]
  obtain ⟨hW2, hP2⟩ := updNodeInScene_obs hsc2 rfl e.id
    (fun n => { n with image :=
      (match v.bind (fun vid => d.images.find? (fun im => im.id == vid)) with
        | some img => if img.itype = "IMAGE" then some img.id else none
        | none => none) })
  refine ⟨updNode w1 e.id
      (fun n => { n with image :=
        (match v.bind (fun vid => d.images.find? (fun im => im.id == vid)) with
          | some img => if img.itype = "IMAGE" then some img.id else none
          | none => none) }),
    { e with image :=
      (match v.bind (fun vid => d.images.find? (fun im => im.id == vid)) with
        | some img => if img.itype = "IMAGE" then some img.id else none
        | none => none) }, ?_, ?_, ?_, ?_, ?_, ?_⟩
  · rw [hA]
    exact hW2
  · rw [hEW]
    exact nodeById_updNode (hi1 hids).2 he1 (fun n => rfl)
  · exact hen
  · exact het
  · rfl
  · rw [hA]
    exact hP2

/-- Witness for C5: assigning an image id that resolves to a 2D `'IMAGE'`
sets the sampler's reference to it. -/
theorem image_update_correct_witness :
    ∃ w2 ne, sceneWorld (assign_image (R := ℚ)
        ⟨[⟨some ⟨true, [], [], 0⟩, ⟨none, 0, 1⟩⟩], [⟨7, "img", "a.hdr", "IMAGE"⟩], 8⟩
        none (some ⟨some 0⟩) 0 (some 7)) 0 = some w2 ∧
      nodeById w2 ((ensureWorld (⟨true, [], [], 0⟩ : World ℚ)).2).env = some ne ∧
      ne.image = some 7 := by
  obtain ⟨w2, ne, h1, h2, h3, h4, h5, h6⟩ := image_update_correct (R := ℚ)
    ⟨[⟨some ⟨true, [], [], 0⟩, ⟨none, 0, 1⟩⟩], [⟨7, "img", "a.hdr", "IMAGE"⟩], 8⟩
    none (some ⟨some 0⟩) 0 ⟨some ⟨true, [], [], 0⟩, ⟨none, 0, 1⟩⟩ ⟨true, [], [], 0⟩
    (some 7) rfl rfl rfl ⟨by decide, by decide⟩
  exact ⟨w2, ne, h1, h2, h5.trans (by decide)⟩

/-- C9: assigning the Property Store's strength field writes the clamped
value `max v 0` both into the store (via the host's `min=0.0` clamp) and
into the background emitter's strength input; the emitter input is never
negative. -/
theorem strength_update_clamped {R : Type} [LinearOrderedField R]
    (d : Data R) (g c : Option Ctx) (si : Nat) (sc : Scene R) (w : World R)
    (v : R)
    (hres : _safe_scene d g c = some si)
    (hsc : d.scenes.get? si = some sc)
    (hw : sc.world = some w)
    (hids : idsOk w) :
    ∃ w2 nb, sceneWorld (assign_strength d g c si v) si = some w2 ∧
      nodeById w2 ((ensureWorld w).2).bg = some nb ∧
      nb.name = "HDRI Background" ∧ nb.ntype = "BACKGROUND" ∧
      nb.strength = max v 0 ∧ 0 ≤ nb.strength ∧
      sceneProps (assign_strength d g c si v) si =
        some { sc.shdri_props with strength := max v 0 } := by
  have hres1 : _safe_scene (updProps d si (fun p => { p with strength := max v 0 })) g c = some si :=
    (safe_scene_isEmpty_congr (updProps_isEmpty d si _) g c).trans hres
  have hsc1 := updProps_obs hsc (fun p => { p with strength := max v 0 })
  obtain ⟨w1, o, b, e, m, t, hEW, hu1, hi1, hs1, hd1, ho1, hb1, he1, hm1, ht1,
    hon, hot, hbn, hbt, hen, het, hmn, hmt2, htn, htt, hstab, hovM, hovB⟩ :=
    ensureWorld_basic w
  obtain ⟨d2, hE, hsc2, hie2, him2⟩ := ensure_obs hres1 hsc1
  simp only [show ({ sc with shdri_props := { sc.shdri_props with strength := max v 0 } } : Scene R).world = sc.world from rfl,
    hw, Option.getD_some, hEW] at hE hsc2
  have hA : assign_strength d g c si v =
      updNodeInScene d2 si b.id (fun n => { n with strength := max v 0 }) := by
    simp only [assign_strength, _update_strength, set_hdri_strength]
    rw [hE]
  obtain ⟨hW2, hP2⟩ := updNodeInScene_obs hsc2 rfl b.id
    (fun n => { n with strength := max v 0 })
  refine ⟨updNode w1 b.id (fun n => { n with strength := max v 0 }),
    { b with strength := max v 0 }, ?_, ?_, ?_, ?_, ?_, ?_, ?_⟩
  · rw [hA]
    exact hW2
  · rw [hEW]
    exact nodeById_updNode (hi1 hids).2 hb1 (fun n => rfl)
  · exact hbn
  · exact hbt
  · rfl
  · exact le_max_right v 0
  · rw [hA]
    exact hP2

/-- Witness for C9: assigning `-5` stores and writes `0`. -/
theorem strength_update_clamped_witness :
    ∃ w2 nb, sceneWorld (assign_strength (R := ℚ)
        ⟨[⟨some ⟨true, [], [], 0⟩, ⟨none, 0, 1⟩⟩], [], 0⟩
        none (some ⟨some 0⟩) 0 (-5)) 0 = some w2 ∧
      nodeById w2 ((ensureWorld (⟨true, [], [], 0⟩ : World ℚ)).2).bg = some nb ∧
      nb.strength = 0 := by
  obtain ⟨w2, nb, h1, h2, h3, h4, h5, h6, h7⟩ := strength_update_clamped (R := ℚ)
    ⟨[⟨some ⟨true, [], [], 0⟩, ⟨none, 0, 1⟩⟩], [], 0⟩
    none (some ⟨some 0⟩) 0 ⟨some ⟨true, [], [], 0⟩, ⟨none, 0, 1⟩⟩ ⟨true, [], [], 0⟩
    (-5) rfl rfl rfl ⟨by decide, by decide⟩
  refine ⟨w2, nb, h1, h2, ?_⟩
  rw [h5]
  decide

/-! ### Claim theorems: no-scene behavior and deduplication -/

/-- C6: when an already-loaded image's resolved path matches the resolved
filepath, `load_hdri` reuses that image: the outcome is independent of the
host loader (it is never invoked) and the image collection is unchanged
(no duplicate). Requires the load precondition of a non-empty filepath. -/
theorem load_dedup {R : Type} [LinearOrderedField R] (d : Data R)
    (g c : Option Ctx) (fp : String) (abspath : String → String) (img : Image)
    (hfp : fp ≠ "")
    (hfind : d.images.find? (fun i => abspath i.filepath == abspath fp) = some img) :
    (∀ loader, load_hdri_execute d g c fp abspath loader = load_finish d g c img) ∧
    (∀ loader, (load_hdri_execute d g c fp abspath loader).data.images = d.images) := by
  have h1 : ∀ loader, load_hdri_execute d g c fp abspath loader = load_finish d g c img := by
    intro loader
    unfold load_hdri_execute
    rw [if_neg hfp, hfind]
  exact ⟨h1, fun loader => by rw [h1 loader]; exact load_finish_images d g c img⟩

/-- Witness for C6: loading `a.hdr` while an image with that path is
already loaded keeps the image collection unchanged, for an arbitrary
(failing) loader. -/
theorem load_dedup_witness :
    (load_hdri_execute (R := ℚ) ⟨[], [⟨0, "i", "a.hdr", "IMAGE"⟩], 1⟩ none none
        "a.hdr" id (fun _ => .error "x")).data.images =
      [⟨0, "i", "a.hdr", "IMAGE"⟩] :=
  (load_dedup ⟨[], [⟨0, "i", "a.hdr", "IMAGE"⟩], 1⟩ none none "a.hdr" id
      ⟨0, "i", "a.hdr", "IMAGE"⟩ (by decide) (by decide)).2 (fun _ => .error "x")

/-- C3 (amended): in a state where no scene resolves, the synchronizer,
the three property setters, `apply_hdri_image` and reset all perform zero
mutations (reset returns cancelled); `load_hdri` never touches any scene's
Property Store or node graph, but with a non-empty filepath it may still
append the loaded image to the image collection and finish. -/
theorem noscene_no_mutation {R : Type} [LinearOrderedField R] (pi : R)
    (d : Data R) (g c : Option Ctx) (h : _safe_scene d g c = none) :
    ensure_world_node_setup d g c = (d, none) ∧
    reset_execute pi d g c = ⟨d, .CANCELLED, []⟩ ∧
    (∀ si v, assign_rotation_deg pi d g c si v = d) ∧
    (∀ si v, assign_strength d g c si v = d) ∧
    (∀ si v, assign_image d g c si v = d) ∧
    (∀ im, apply_hdri_image d g c im = d) ∧
    (∀ fp abspath loader,
      (load_hdri_execute d g c fp abspath loader).data.scenes = d.scenes ∧
      ∃ extra, (load_hdri_execute d g c fp abspath loader).data.images =
        d.images ++ extra) := by
  have hsc : d.scenes = [] := scenes_empty_of_safe_none h
  have hrot : ∀ si v, assign_rotation_deg pi d g c si v = d := by
    intro si v
    simp only [assign_rotation_deg, _update_rotation, set_hdri_rotation_deg]
    rw [updProps_empty hsc, ensure_noscene h]
  have hstr : ∀ si v, assign_strength d g c si v = d := by
    intro si v
    simp only [assign_strength, _update_strength, set_hdri_strength]
    rw [updProps_empty hsc, ensure_noscene h]
  have himg : ∀ si v, assign_image d g c si v = d := by
    intro si v
    simp only [assign_image, _update_image]
    rw [updProps_empty hsc, apply_noscene h]
  have hreset : reset_execute pi d g c = ⟨d, .CANCELLED, []⟩ := by
    unfold reset_execute
    rw [h]
  refine ⟨ensure_noscene h, hreset, hrot, hstr, himg, apply_noscene h, ?_⟩
  intro fp abspath loader
  by_cases hfp : fp = ""
  · subst hfp
    simp only [load_hdri_execute, if_pos rfl]
    exact ⟨rfl, [], by simp⟩
  · cases hf : d.images.find? (fun i => abspath i.filepath == abspath fp) with
    | some img =>
      have hrw : load_hdri_execute d g c fp abspath loader = load_finish d g c img := by
        unfold load_hdri_execute
        rw [if_neg hfp, hf]
      rw [hrw, load_finish_noscene h]
      exact ⟨rfl, [], by simp⟩
    | none =>
      cases hl : loader fp with
      | error e =>
        have hrw : load_hdri_execute d g c fp abspath loader =
            ⟨d, .CANCELLED, [⟨"ERROR", "Failed to load image: " ++ e⟩]⟩ := by
          unfold load_hdri_execute
          rw [if_neg hfp, hf, hl]
        rw [hrw]
        exact ⟨rfl, [], by simp⟩
      | ok pr =>
        cases pr with
        | mk nm ty =>
          have hrw : load_hdri_execute d g c fp abspath loader =
              load_finish ({ d with
                images := d.images ++ [⟨d.nextImageId, nm, fp, ty⟩],
                nextImageId := d.nextImageId + 1 }) g c
                ⟨d.nextImageId, nm, fp, ty⟩ := by
            unfold load_hdri_execute
            rw [if_neg hfp, hf, hl]
          have hd1 : ({ d with
              images := d.images ++ [⟨d.nextImageId, nm, fp, ty⟩],
              nextImageId := d.nextImageId + 1 } : Data R).scenes = d.scenes := rfl
          have hsafe1 : _safe_scene ({ d with
              images := d.images ++ [⟨d.nextImageId, nm, fp, ty⟩],
              nextImageId := d.nextImageId + 1 } : Data R) g c = none := by
            rw [safe_scene_congr hd1 g c]
            exact h
          rw [hrw, load_finish_noscene hsafe1]
          exact ⟨rfl, [⟨d.nextImageId, nm, fp, ty⟩], rfl⟩

/-- Counterexample for C3 as stated: with no scene at all, `load_hdri` on
a non-empty filepath with a succeeding loader mutates the image collection
and returns finished rather than cancelled. -/
theorem noscene_no_mutation_cex :
    (load_hdri_execute (R := ℚ) ⟨[], [], 0⟩ none none "a.hdr" id
        (fun _ => .ok ("img", "IMAGE"))).result = .FINISHED ∧
    (load_hdri_execute (R := ℚ) ⟨[], [], 0⟩ none none "a.hdr" id
        (fun _ => .ok ("img", "IMAGE"))).data.images ≠ [] ∧
    _safe_scene (R := ℚ) ⟨[], [], 0⟩ none none = none := by
  decide

/-- Witness for C3 (amended): on a sceneless state, reset cancels without
mutation. -/
theorem noscene_no_mutation_witness :
    reset_execute (R := ℚ) 3 ⟨[], [], 0⟩ none none =
      ⟨⟨[], [], 0⟩, .CANCELLED, []⟩ :=
  (noscene_no_mutation 3 ⟨[], [], 0⟩ none none (by decide)).2.1

/-- Witness for C7: a failing loader on a fresh state yields the cancelled
outcome carrying the host's message, with the state untouched. -/
theorem load_failure_no_mutation_witness :
    load_hdri_execute (R := ℚ) ⟨[], [], 0⟩ none none "x.hdr" id
        (fun _ => .error "boom") =
      ⟨⟨[], [], 0⟩, .CANCELLED, [⟨"ERROR", "Failed to load image: boom"⟩]⟩ :=
  (load_failure_no_mutation ⟨[], [], 0⟩ none none id
      (fun _ => .error "boom")).2 "x.hdr" "boom" (by decide) rfl rfl

/-! ### Reset: support lemmas -/

theorem updNodeInScene_get? {d : Data R} {si : Nat} {sc : Scene R} {w : World R}
    (hsc : d.scenes.get? si = some sc) (hw : sc.world = some w)
    (nid : Nat) (f : Node R → Node R) :
    (updNodeInScene d si nid f).scenes.get? si =
      some { sc with world := some (updNode w nid f) } := by
  rw [updNodeInScene_eq hsc hw]
  exact get?_set_self hsc _

theorem updNodeInScene_isEmpty (d : Data R) (si nid : Nat) (f : Node R → Node R) :
    (updNodeInScene d si nid f).scenes.isEmpty = d.scenes.isEmpty := by
  unfold updNodeInScene
  split
  · rfl
  · split
    · rfl
    · exact isEmpty_set _ _ _

theorem find?_name_updNode {l : List (Node R)} {nid : Nat} {s : String}
    {f : Node R → Node R} (hf : ∀ n, (f n).name = n.name) :
    (l.map (fun n => if n.id = nid then f n else n)).find? (fun y => y.name == s) =
      (l.find? (fun y => y.name == s)).map (fun n => if n.id = nid then f n else n) := by
  induction l with
  | nil => rfl
  | cons a as ih =>
    have hga : ((if a.id = nid then f a else a) : Node R).name = a.name := by
      split
      · exact hf a
      · rfl
    by_cases h : (a.name == s) = true
    · rw [List.map_cons,
        show List.find? (fun y => y.name == s)
            ((if a.id = nid then f a else a) :: as.map (fun n => if n.id = nid then f n else n)) =
          some (if a.id = nid then f a else a)
          from List.find?_cons_of_pos _ (by simpa [hga] using h),
        show List.find? (fun y => y.name == s) (a :: as) = some a
          from List.find?_cons_of_pos _ h]
      rfl
    · rw [List.map_cons,
        show List.find? (fun y => y.name == s)
            ((if a.id = nid then f a else a) :: as.map (fun n => if n.id = nid then f n else n)) =
          List.find? (fun y => y.name == s) (as.map (fun n => if n.id = nid then f n else n))
          from List.find?_cons_of_neg _ (by simpa [hga] using h),
        show List.find? (fun y => y.name == s) (a :: as) =
          List.find? (fun y => y.name == s) as from List.find?_cons_of_neg _ h]
      exact ih

theorem roleFind_updNode {w : World R} {nid : Nat} {f : Node R → Node R}
    (hf : ∀ n, (f n).name = n.name) (s : String) :
    roleFind (updNode w nid f) s =
      (roleFind w s).map (fun n => if n.id = nid then f n else n) := by
  unfold roleFind updNode
  dsimp only
  exact find?_name_updNode hf

theorem established_link {w : World R} {p : RolePair} {a b : Node R}
    (hw : establishedLinks w) (hp : p ∈ requiredPairs)
    (ha : roleFind w p.fromRole = some a) (hb : roleFind w p.toRole = some b) :
    (⟨⟨a.id, p.fromSock⟩, ⟨b.id, p.toSock⟩⟩ : Link) ∈ w.links := by
  obtain ⟨x, y, hx, hy, hm⟩ := hw p hp
  rw [hx] at ha
  rw [hy] at hb
  cases Option.some.inj ha
  cases Option.some.inj hb
  exact hm

theorem assign_rotation_eq (pi : R) {d : Data R} {g c : Option Ctx} {si : Nat}
    {sc : Scene R} {w : World R}
    (hres : _safe_scene d g c = some si) (hsc : d.scenes.get? si = some sc)
    (hw : sc.world = some w) (v : R) {w1 : World R} {h : Handles}
    (hEW : ensureWorld w = (w1, h)) :
    ∃ dA : Data R,
      assign_rotation_deg pi d g c si v = updNodeInScene dA si h.mapping
        (fun n => { n with rotation := (n.rotation.1, n.rotation.2.1, radians pi v) }) ∧
      dA.scenes.get? si = some
        { sc with shdri_props := { sc.shdri_props with rotation_deg := v },
                  world := some w1 } ∧
      dA.scenes.isEmpty = d.scenes.isEmpty := by
  have hres1 : _safe_scene (updProps d si (fun p => { p with rotation_deg := v })) g c =
      some si :=
    (safe_scene_isEmpty_congr (updProps_isEmpty d si _) g c).trans hres
  have hsc1 := updProps_obs hsc (fun p => { p with rotation_deg := v })
  obtain ⟨dA, hE, hscA, hieA, _⟩ := ensure_obs hres1 hsc1
  simp only [show ({ sc with shdri_props := { sc.shdri_props with rotation_deg := v } } : Scene R).world = sc.world from rfl,
    hw, Option.getD_some, hEW] at hE hscA
  refine ⟨dA, ?_, ?_, hieA.trans (updProps_isEmpty d si _)⟩
  · simp only [assign_rotation_deg, _update_rotation, set_hdri_rotation_deg]
    rw [hE]
  · exact hscA

theorem assign_strength_eq {d : Data R} {g c : Option Ctx} {si : Nat}
    {sc : Scene R} {w : World R}
    (hres : _safe_scene d g c = some si) (hsc : d.scenes.get? si = some sc)
    (hw : sc.world = some w) (v : R) {w1 : World R} {h : Handles}
    (hEW : ensureWorld w = (w1, h)) :
    ∃ dB : Data R,
      assign_strength d g c si v = updNodeInScene dB si h.bg
        (fun n => { n with strength := max v 0 }) ∧
      dB.scenes.get? si = some
        { sc with shdri_props := { sc.shdri_props with strength := max v 0 },
                  world := some w1 } ∧
      dB.scenes.isEmpty = d.scenes.isEmpty := by
  have hres1 : _safe_scene (updProps d si (fun p => { p with strength := max v 0 })) g c =
      some si :=
    (safe_scene_isEmpty_congr (updProps_isEmpty d si _) g c).trans hres
  have hsc1 := updProps_obs hsc (fun p => { p with strength := max v 0 })
  obtain ⟨dB, hE, hscB, hieB, _⟩ := ensure_obs hres1 hsc1
  simp only [show ({ sc with shdri_props := { sc.shdri_props with strength := max v 0 } } : Scene R).world = sc.world from rfl,
    hw, Option.getD_some, hEW] at hE hscB
  refine ⟨dB, ?_, ?_, hieB.trans (updProps_isEmpty d si _)⟩
  · simp only [assign_strength, _update_strength, set_hdri_strength]
    rw [hE]
  · exact hscB

theorem roleFind_rotF (pi : R) (w : World R) (nid : Nat) (s : String) :
    roleFind (updNode w nid
        (fun n => { n with rotation := (n.rotation.1, n.rotation.2.1, radians pi 0) })) s =
      (roleFind w s).map
        (fun n => if n.id = nid then
          { n with rotation := (n.rotation.1, n.rotation.2.1, radians pi 0) } else n) :=
  roleFind_updNode
    (f := fun n => { n with rotation := (n.rotation.1, n.rotation.2.1, radians pi 0) })
    (fun n => rfl) s

theorem roleFind_sF (v : R) (w : World R) (nid : Nat) (s : String) :
    roleFind (updNode w nid (fun n => { n with strength := v })) s =
      (roleFind w s).map
        (fun n => if n.id = nid then { n with strength := v } else n) :=
  roleFind_updNode (f := fun n => { n with strength := v }) (fun n => rfl) s

/-- C8: when a scene resolves, reset stores `rotation_deg = 0` and
`strength = 1` in its Property Store, the update chain writes `radians 0`
into the third rotation component of the mapping node and `1` into the
background node's strength input, and the operator finishes with the
success report; when no scene resolves, reset cancels with zero mutations.
Stated on a host-consistent (`tidy`) world so that the reserved role names
identify the mapping and background nodes unambiguously. -/
theorem reset_correct {R : Type} [LinearOrderedField R] (pi : R)
    (d : Data R) (g c : Option Ctx) (si : Nat) (sc : Scene R) (w : World R)
    (hres : _safe_scene d g c = some si)
    (hsc : d.scenes.get? si = some sc)
    (hw : sc.world = some w)
    (ht : tidy w) :
    (∃ (d2 : Data R) (w2 : World R) (nm2 nb2 : Node R),
      reset_execute pi d g c =
        { data := d2, result := .FINISHED,
          reports := [⟨"INFO", "HDRI settings reset"⟩] } ∧
      sceneProps d2 si =
        some { sc.shdri_props with rotation_deg := 0, strength := 1 } ∧
      sceneWorld d2 si = some w2 ∧
      roleFind w2 "HDRI Mapping" = some nm2 ∧
      nm2.rotation.2.2 = radians pi 0 ∧
      roleFind w2 "HDRI Background" = some nb2 ∧
      nb2.strength = 1) ∧
    (∀ (d0 : Data R) (g0 c0 : Option Ctx), _safe_scene d0 g0 c0 = none →
      reset_execute pi d0 g0 c0 = ⟨d0, .CANCELLED, []⟩) := by
  obtain ⟨w1, o, b, e, m, t, hEW, hest1, hi1, ho1, hb1, he1, hm1, ht1,
    hot, hbt, het, hmt, htt, _, _⟩ := ensureWorld_tidy w ht
  obtain ⟨dA, hA, hscA, hieA⟩ := assign_rotation_eq pi hres hsc hw 0 hEW
  have hA' : assign_rotation_deg pi d g c si 0 = updNodeInScene dA si m.id
      (fun n => { n with rotation := (n.rotation.1, n.rotation.2.1, radians pi 0) }) := hA
  have hscA1 := updNodeInScene_get? hscA rfl m.id
    (fun n => { n with rotation := (n.rotation.1, n.rotation.2.1, radians pi 0) })
  have hie1 : (updNodeInScene dA si m.id
      (fun n => { n with rotation := (n.rotation.1, n.rotation.2.1, radians pi 0) })).scenes.isEmpty =
      d.scenes.isEmpty :=
    (updNodeInScene_isEmpty dA si m.id _).trans hieA
  have hres2 : _safe_scene (updNodeInScene dA si m.id
      (fun n => { n with rotation := (n.rotation.1, n.rotation.2.1, radians pi 0) })) g c =
      some si :=
    (safe_scene_isEmpty_congr hie1 g c).trans hres
  have hno : o.name = "World Output" := roleFind_name ho1
  have hnb : b.name = "HDRI Background" := roleFind_name hb1
  have hnee : e.name = "HDRI Environment" := roleFind_name he1
  have hnm : m.name = "HDRI Mapping" := roleFind_name hm1
  have hnt : t.name = "HDRI TexCoord" := roleFind_name ht1
  have hne_om : o.id ≠ m.id := ids_ne_of_ne hi1.2 (roleFind_mem ho1) (roleFind_mem hm1)
    (by
      intro hEq
      rw [hEq, hnm] at hno
      exact absurd hno (by decide))
  have hne_bm : b.id ≠ m.id := ids_ne_of_ne hi1.2 (roleFind_mem hb1) (roleFind_mem hm1)
    (by
      intro hEq
      rw [hEq, hnm] at hnb
      exact absurd hnb (by decide))
  have hne_em : e.id ≠ m.id := ids_ne_of_ne hi1.2 (roleFind_mem he1) (roleFind_mem hm1)
    (by
      intro hEq
      rw [hEq, hnm] at hnee
      exact absurd hnee (by decide))
  have hne_tm : t.id ≠ m.id := ids_ne_of_ne hi1.2 (roleFind_mem ht1) (roleFind_mem hm1)
    (by
      intro hEq
      rw [hEq, hnm] at hnt
      exact absurd hnt (by decide))
  have hne_mb : m.id ≠ b.id := fun hEq => hne_bm hEq.symm
  have fAo : roleFind (updNode w1 m.id
      (fun n => { n with rotation := (n.rotation.1, n.rotation.2.1, radians pi 0) }))
      "World Output" = some o := by
    rw [roleFind_rotF, ho1]
    simp only [Option.map_some']
    rw [if_neg hne_om]
  have fAb : roleFind (updNode w1 m.id
      (fun n => { n with rotation := (n.rotation.1, n.rotation.2.1, radians pi 0) }))
      "HDRI Background" = some b := by
    rw [roleFind_rotF, hb1]
    simp only [Option.map_some']
    rw [if_neg hne_bm]
  have fAe : roleFind (updNode w1 m.id
      (fun n => { n with rotation := (n.rotation.1, n.rotation.2.1, radians pi 0) }))
      "HDRI Environment" = some e := by
    rw [roleFind_rotF, he1]
    simp only [Option.map_some']
    rw [if_neg hne_em]
  have fAm : roleFind (updNode w1 m.id
      (fun n => { n with rotation := (n.rotation.1, n.rotation.2.1, radians pi 0) }))
      "HDRI Mapping" =
      some { m with rotation := (m.rotation.1, m.rotation.2.1, radians pi 0) } := by
    rw [roleFind_rotF, hm1]
    simp only [Option.map_some']
    rw [if_pos trivial]
  have fAt : roleFind (updNode w1 m.id
      (fun n => { n with rotation := (n.rotation.1, n.rotation.2.1, radians pi 0) }))
      "HDRI TexCoord" = some t := by
    rw [roleFind_rotF, ht1]
    simp only [Option.map_some']
    rw [if_neg hne_tm]
  have hL1 : (⟨⟨t.id, "Generated"⟩, ⟨m.id, "Vector"⟩⟩ : Link) ∈ w1.links :=
    established_link (p := ⟨"HDRI TexCoord", "Generated", "HDRI Mapping", "Vector"⟩)
      hest1.2.2 (by decide) ht1 hm1
  have hL2 : (⟨⟨m.id, "Vector"⟩, ⟨e.id, "Vector"⟩⟩ : Link) ∈ w1.links :=
    established_link (p := ⟨"HDRI Mapping", "Vector", "HDRI Environment", "Vector"⟩)
      hest1.2.2 (by decide) hm1 he1
  have hL3 : (⟨⟨e.id, "Color"⟩, ⟨b.id, "Color"⟩⟩ : Link) ∈ w1.links :=
    established_link (p := ⟨"HDRI Environment", "Color", "HDRI Background", "Color"⟩)
      hest1.2.2 (by decide) he1 hb1
  have hL4 : (⟨⟨b.id, "Background"⟩, ⟨o.id, "Surface"⟩⟩ : Link) ∈ w1.links :=
    established_link (p := ⟨"HDRI Background", "Background", "World Output", "Surface"⟩)
      hest1.2.2 (by decide) hb1 ho1
  have hEWA := ensure_established_id (updNode w1 m.id
      (fun n => { n with rotation := (n.rotation.1, n.rotation.2.1, radians pi 0) }))
    hest1.1 fAo hot fAb hbt fAe het fAm hmt fAt htt hL1 hL2 hL3 hL4
  obtain ⟨dB, hB, hscB, _⟩ := assign_strength_eq hres2 hscA1 rfl 1 hEWA
  have hB' : assign_strength (updNodeInScene dA si m.id
      (fun n => { n with rotation := (n.rotation.1, n.rotation.2.1, radians pi 0) })) g c si 1 =
      updNodeInScene dB si b.id (fun n => { n with strength := max 1 0 }) := hB
  obtain ⟨hWB, hPB⟩ := updNodeInScene_obs hscB rfl b.id
    (fun n => { n with strength := max 1 0 })
  have hgoal : reset_execute pi d g c =
      { data := assign_strength (assign_rotation_deg pi d g c si 0) g c si 1,
        result := .FINISHED, reports := [⟨"INFO", "HDRI settings reset"⟩] } := by
    unfold reset_execute
    rw [hres]
  rw [hA'] at hgoal
  rw [hB'] at hgoal
  have fBm : roleFind (updNode (updNode w1 m.id
      (fun n => { n with rotation := (n.rotation.1, n.rotation.2.1, radians pi 0) }))
      b.id (fun n => { n with strength := max 1 0 })) "HDRI Mapping" =
      some { m with rotation := (m.rotation.1, m.rotation.2.1, radians pi 0) } := by
    rw [roleFind_sF, fAm]
    simp only [Option.map_some']
    rw [if_neg hne_mb]
  have fBb : roleFind (updNode (updNode w1 m.id
      (fun n => { n with rotation := (n.rotation.1, n.rotation.2.1, radians pi 0) }))
      b.id (fun n => { n with strength := max 1 0 })) "HDRI Background" =
      some { b with strength := max 1 0 } := by
    rw [roleFind_sF, fAb]
    simp only [Option.map_some']
    rw [if_pos trivial]
  have hmax : (max (1 : R) 0) = 1 := max_eq_left zero_le_one
  refine ⟨⟨updNodeInScene dB si b.id (fun n => { n with strength := max 1 0 }),
    updNode (updNode w1 m.id
      (fun n => { n with rotation := (n.rotation.1, n.rotation.2.1, radians pi 0) }))
      b.id (fun n => { n with strength := max 1 0 }),
    { m with rotation := (m.rotation.1, m.rotation.2.1, radians pi 0) },
    { b with strength := max 1 0 },
    hgoal, ?_, hWB, fBm, rfl, fBb, hmax⟩, ?_⟩
  · have hswap : (some { sc.shdri_props with rotation_deg := 0, strength := 1 } : Option (Props R)) =
        some { sc.shdri_props with rotation_deg := 0, strength := max 1 0 } := by
      rw [hmax]
    rw [hswap]
    exact hPB
  · intro d0 g0 c0 h0
    unfold reset_execute
    rw [h0]

/-- Witness for C8: on a one-scene state with an empty world and props
`rotation_deg = 45`, `strength = 3`, reset finishes with the success
report, the Property Store reads `0` and `1`, and the mapping and
background nodes carry `radians 0` and `1`; and every sceneless state
cancels. -/
theorem reset_correct_witness :
    (∃ (d2 : Data ℚ) (w2 : World ℚ) (nm2 nb2 : Node ℚ),
      reset_execute (R := ℚ) 3 ⟨[⟨some ⟨false, [], [], 0⟩, ⟨none, 45, 3⟩⟩], [], 0⟩
          none (some ⟨some 0⟩) =
        { data := d2, result := .FINISHED,
          reports := [⟨"INFO", "HDRI settings reset"⟩] } ∧
      sceneProps d2 0 =
        some { (⟨none, 45, 3⟩ : Props ℚ) with rotation_deg := 0, strength := 1 } ∧
      sceneWorld d2 0 = some w2 ∧
      roleFind w2 "HDRI Mapping" = some nm2 ∧
      nm2.rotation.2.2 = radians 3 0 ∧
      roleFind w2 "HDRI Background" = some nb2 ∧
      nb2.strength = 1) ∧
    (∀ (d0 : Data ℚ) (g0 c0 : Option Ctx), _safe_scene d0 g0 c0 = none →
      reset_execute 3 d0 g0 c0 = ⟨d0, .CANCELLED, []⟩) :=
  reset_correct 3 ⟨[⟨some ⟨false, [], [], 0⟩, ⟨none, 45, 3⟩⟩], [], 0⟩ none (some ⟨some 0⟩) 0
    ⟨some ⟨false, [], [], 0⟩, ⟨none, 45, 3⟩⟩ ⟨false, [], [], 0⟩ rfl rfl rfl
    ⟨⟨by decide, by decide⟩, by unfold linksOk; decide, by unfold rolesOk; decide,
     by unfold namesOk; decide, by unfold pairsOk; decide⟩

end SHDRI
